import Mathlib

/-!
Verification development for the namespace-aware XML serialization engine of
the xmlbuilder2 library (BaseWriter) and the Document node factory methods.

The serializer is embedded as pure Lean functions over an explicit tree type:
stateful code becomes explicit state passing (the generated-prefix index is
threaded through recursive calls, mirroring the by-reference sharing in the
source; the prefix map is passed downward only, mirroring copy-on-descend),
and fallible code returns Except.  External collaborators whose code is not
part of the serializer sources (the XML grammar validators and the
NamespacePrefixMap / LocalNameSet support structures) are modelled from the
specification's contracts, as noted on their doc comments.
-/

deriving instance DecidableEq for Except

set_option synthInstance.maxSize 512

namespace XmlBuilder2

/-! ### String helpers (substring containment, as JS indexOf !== -1) -/

/-- Whether the first list is an initial segment of the second. -/
def leadsList : List Char → List Char → Bool
  | [], _ => true
  | _ :: _, [] => false
  | a :: as, b :: bs => a == b && leadsList as bs

/-- Whether the pattern occurs contiguously somewhere in the list. -/
def occursIn (pat : List Char) : List Char → Bool
  | [] => leadsList pat []
  | c :: cs => leadsList pat (c :: cs) || occursIn pat cs

/-- JS `s.indexOf(pat) !== -1` / `s.includes(pat)`: substring containment. -/
def strIncludes (s pat : String) : Bool := occursIn pat.data s.data

/-- JS `s.endsWith(pat)`: suffix test. -/
def strEndsWith (s pat : String) : Bool := leadsList pat.data.reverse s.data.reverse

/-! ### Namespace URI constants (from the infra namespace module) -/

namespace infraNamespace

def XML : String := "http://www.w3.org/XML/1998/namespace"

def XMLNS : String := "http://www.w3.org/2000/xmlns/"

def HTML : String := "http://www.w3.org/1999/xhtml"

end infraNamespace

/-! ### XML grammar validators -/

/-- Decidable interval membership on codepoints. -/
def between (lo n hi : Nat) : Bool := decide (lo ≤ n ∧ n ≤ hi)

/-- Modelled from the spec: character/name validation against the XML Name
production is consumed as an external validation predicate; this is the
NameStartChar production of XML 1.0 on a codepoint. -/
def xml_isNameStartCharCode (n : Nat) : Bool :=
  n == 58 || between 65 n 90 || n == 95 || between 97 n 122 ||
  between 0xC0 n 0xD6 || between 0xD8 n 0xF6 || between 0xF8 n 0x2FF ||
  between 0x370 n 0x37D || between 0x37F n 0x1FFF || between 0x200C n 0x200D ||
  between 0x2070 n 0x218F || between 0x2C00 n 0x2FEF || between 0x3001 n 0xD7FF ||
  between 0xF900 n 0xFDCF || between 0xFDF0 n 0xFFFD || between 0x10000 n 0xEFFFF

/-- Modelled from the spec: the NameChar production of XML 1.0 on a codepoint. -/
def xml_isNameCharCode (n : Nat) : Bool :=
  xml_isNameStartCharCode n || n == 45 || n == 46 || between 48 n 57 ||
  n == 0xB7 || between 0x300 n 0x36F || between 0x203F n 0x2040

/-- Modelled from the spec: whether a string matches the XML Name production
(external validator consumed by the serializer). -/
def xml_isName (s : String) : Bool :=
  match s.data with
  | [] => false
  | c :: cs => xml_isNameStartCharCode c.toNat && cs.all (fun d => xml_isNameCharCode d.toNat)

/-- Modelled from the spec: the Char production of XML 1.0 on a codepoint
(legal XML character ranges). -/
def xml_isLegalCharCode (n : Nat) : Bool :=
  n == 9 || n == 0xA || n == 0xD || between 0x20 n 0xD7FF ||
  between 0xE000 n 0xFFFD || between 0x10000 n 0x10FFFF

/-- Modelled from the spec: whether every character of the string is a legal
XML character (external validator consumed by the serializer). -/
def xml_isLegalChar (s : String) : Bool :=
  s.data.all (fun c => xml_isLegalCharCode c.toNat)

/-- Extra punctuation characters of the PubidChar production. -/
def pubidExtraChars : List Char := ("-'()+,./:=?;!*#@$_%").data

/-- Modelled from the spec: the PubidChar production of XML 1.0 on one character. -/
def xml_isPubidChar1 (c : Char) : Bool :=
  c == ' ' || c == '\r' || c == '\n' || between 97 c.toNat 122 ||
  between 65 c.toNat 90 || between 48 c.toNat 57 || pubidExtraChars.contains c

/-- Modelled from the spec: whether every character of the string matches the
PubidChar production (external validator consumed by the serializer). -/
def xml_isPubidChar (s : String) : Bool := s.data.all xml_isPubidChar1

/-! ### Tree data model (nodes consumed read-only by the serializer) -/

/-- An attribute node: localName with optional prefix and namespace, and a value. -/
structure XAttr where
  namespaceURI : Option String
  pfx : Option String
  localName : String
  value : String
deriving DecidableEq, Repr

/-- The node kinds dispatched on by the serializer.  The catch-all
constructor stands for any node whose numeric nodeType is none of the eight
supported kinds and carries that numeric type. -/
inductive XNode where
  | element (namespaceURI : Option String) (pfx : Option String) (localName : String)
      (attrs : List XAttr) (children : List XNode)
  | document (children : List XNode)
  | docFragment (children : List XNode)
  | text (data : String)
  | comment (data : String)
  | cdata (data : String)
  | instruction (target : String) (data : String)
  | doctype (name : String) (publicId : String) (systemId : String)
  | other (nodeType : Nat)
deriving Repr

/-- Whether a node is an element (used for the documentElement lookup). -/
def isElementNode : XNode → Bool
  | .element _ _ _ _ _ => true
  | _ => false

/-! ### Namespace prefix map -/

/-- Modelled from the spec: the Namespace Prefix Map structure is provided by
the DOM support package, not by the serializer sources.  Entries map a prefix
string to a namespace URI (none is the null-namespace sentinel).  The copy
used on descent is value-semantic here, so this structure is an independent
snapshot by construction. -/
structure NamespacePfxMap where
  entries : List (String × Option String)
deriving DecidableEq, Repr

/-- Modelled from the spec: set inserts or overwrites the binding of a prefix. -/
def NamespacePfxMap.set (m : NamespacePfxMap) (p : String) (ns : Option String) :
    NamespacePfxMap :=
  ⟨(p, ns) :: m.entries.filter (fun e => ! (e.1 == p))⟩

/-- Modelled from the spec: exact pair membership. -/
def NamespacePfxMap.has (m : NamespacePfxMap) (p : String) (ns : Option String) : Bool :=
  m.entries.contains (p, ns)

/-- Modelled from the spec: whether any binding exists for this prefix. -/
def NamespacePfxMap.hasPfx (m : NamespacePfxMap) (p : String) : Bool :=
  m.entries.any (fun e => e.1 == p)

/-- Modelled from the spec: retrieve a preferred prefix string — return the
preferred prefix if it already maps to the namespace, else a deterministic
existing prefix mapping to it, else none. -/
def NamespacePfxMap.get (m : NamespacePfxMap) (preferred : Option String)
    (ns : Option String) : Option String :=
  match preferred with
  | some p =>
    if m.entries.contains (p, ns) then some p
    else (m.entries.find? (fun e => e.2 == ns)).map (fun e => e.1)
  | none => (m.entries.find? (fun e => e.2 == ns)).map (fun e => e.1)

/-- Modelled from the spec: copy produces an independent map seeded with the
current entries; with value semantics this is the identity on the snapshot. -/
def NamespacePfxMap.copy (m : NamespacePfxMap) : NamespacePfxMap := m

/-! ### Local name set -/

/-- Modelled from the spec: the Local Name Set tracks (namespaceURI, localName)
pairs seen on one element's attribute list; provided by the DOM support
package, not by the serializer sources. -/
structure LocalNameSet where
  items : List (Option String × String)
deriving DecidableEq, Repr

/-- Modelled from the spec: exact pair membership. -/
def LocalNameSet.has (s : LocalNameSet) (ns : Option String) (ln : String) : Bool :=
  s.items.contains (ns, ln)

/-- Modelled from the spec: record a pair. -/
def LocalNameSet.set (s : LocalNameSet) (ns : Option String) (ln : String) : LocalNameSet :=
  ⟨(ns, ln) :: s.items⟩

/-! ### Assoc-list operations for the local prefixes map (a plain string-keyed object) -/

/-- Overwriting insertion into a string-keyed object. -/
def assocSet (l : List (String × String)) (k v : String) : List (String × String) :=
  (k, v) :: l.filter (fun e => ! (e.1 == k))

/-- Key membership in a string-keyed object. -/
def assocHas (l : List (String × String)) (k : String) : Bool :=
  l.any (fun e => e.1 == k)

/-- Lookup in a string-keyed object. -/
def assocGet? (l : List (String × String)) (k : String) : Option String :=
  (l.find? (fun e => e.1 == k)).map (fun e => e.2)

/-! ### Character escaping -/

/-- Whitespace in the sense of the JS regex class backslash-s (the complement
of the backslash-S class of the entity lookahead): tab, line feed, vertical
tab, form feed, carriage return, space, no-break space, Ogham space mark, the
U+2000 to U+200A spaces, line separator, paragraph separator, narrow no-break
space, medium mathematical space, ideographic space, and the byte order mark. -/
def jsIsSpace (c : Char) : Bool :=
  c == '\t' || c == '\n' || c == '\x0b' || c == '\x0c' || c == '\r' || c == ' ' ||
  c == '\xa0' || c.toNat == 0x1680 ||
  (0x2000 ≤ c.toNat && c.toNat ≤ 0x200a) ||
  c.toNat == 0x2028 || c.toNat == 0x2029 || c.toNat == 0x202f ||
  c.toNat == 0x205f || c.toNat == 0x3000 || c.toNat == 0xfeff

/-- The negative-lookahead test of the noDoubleEncoding ampersand regex: after
an ampersand, there is at least one non-space character followed by a
semicolon with no intervening space (a recognizable entity reference). -/
def entityAhead (l : List Char) : Bool :=
  ((l.takeWhile (fun c => ! jsIsSpace c)).drop 1).contains ';'

/-- The first stage of the noDoubleEncoding pipeline: replace each ampersand
that does not begin a recognizable entity reference by the amp entity. -/
def ampNoDouble : List Char → List Char
  | [] => []
  | c :: cs =>
    if c == '&' then
      if entityAhead cs then c :: ampNoDouble cs
      else ("&amp;").data ++ ampNoDouble cs
    else c :: ampNoDouble cs

/-- Global replacement of one character by a string, as a JS replace with a
single-character global regex. -/
def replaceAllChar (t : Char) (r : List Char) : List Char → List Char
  | [] => []
  | c :: cs => if c == t then r ++ replaceAllChar t r cs else c :: replaceAllChar t r cs

/-- The noDoubleEncoding attribute-value pipeline, in source order: ampersand
(entity-aware), then lt, quot, tab, newline, carriage return. -/
def escapeAttrValueNoDouble (s : String) : String :=
  ⟨replaceAllChar '\r' (("&#xD;").data)
    (replaceAllChar '\n' (("&#xA;").data)
      (replaceAllChar '\t' (("&#x9;").data)
        (replaceAllChar '"' (("&quot;").data)
          (replaceAllChar '<' (("&lt;").data)
            (ampNoDouble s.data)))))⟩

/-- Default attribute-value escaping of one character: quot, amp, lt, gt. -/
def escapeAttrChar (c : Char) : List Char :=
  if c == '"' then ("&quot;").data
  else if c == '&' then ("&amp;").data
  else if c == '<' then ("&lt;").data
  else if c == '>' then ("&gt;").data
  else [c]

/-- Default attribute-value escaping (the per-character loop of the source). -/
def escapeAttrValueDefault (s : String) : String :=
  ⟨(s.data.map escapeAttrChar).flatten⟩

/-- The noDoubleEncoding text pipeline, in source order: ampersand
(entity-aware), then lt, gt, carriage return. -/
def escapeTextNoDouble (s : String) : String :=
  ⟨replaceAllChar '\r' (("&#xD;").data)
    (replaceAllChar '>' (("&gt;").data)
      (replaceAllChar '<' (("&lt;").data)
        (ampNoDouble s.data)))⟩

/-- Default text escaping of one character: amp, lt, gt. -/
def escapeTextChar (c : Char) : List Char :=
  if c == '&' then ("&amp;").data
  else if c == '<' then ("&lt;").data
  else if c == '>' then ("&gt;").data
  else [c]

/-- Default text escaping (the per-character loop of the source). -/
def escapeTextDefault (s : String) : String :=
  ⟨(s.data.map escapeTextChar).flatten⟩

/-- Serializing an attribute value: reject illegal characters under
requireWellFormed, map null to the empty string, then escape according to the
noDoubleEncoding toggle. -/
def serializeAttributeValue (value : Option String)
    (requireWellFormed noDoubleEncoding : Bool) : Except String String :=
  match value with
  | none => .ok ""
  | some v =>
    if requireWellFormed && ! xml_isLegalChar v then
      .error "Invalid characters in attribute value."
    else
      .ok (if noDoubleEncoding then escapeAttrValueNoDouble v else escapeAttrValueDefault v)

/-! ### Output sink events -/

/-- An emitted attribute tuple: (namespaceURI?, prefix?, localName, value). -/
abbrev AttrEntry := Option String × Option String × String × String

/-- The structural events emitted to the output sink, in document order. -/
inductive Event where
  | docType (name : String) (publicId : String) (systemId : String)
  | comment (data : String)
  | text (data : String)
  | instruction (target : String) (data : String)
  | cdata (data : String)
  | beginElement (name : String)
  | openTagBegin (name : String)
  | attributes (attrs : List AttrEntry)
  | openTagEnd (name : String) (selfClosing : Bool) (voidElement : Bool)
  | closeTag (name : String)
  | endElement (name : String)
deriving DecidableEq, Repr

/-- The HTML void element names. -/
def VoidElementNames : List String :=
  ["area", "base", "basefont", "bgsound", "br", "col", "embed", "frame", "hr",
   "img", "input", "keygen", "link", "menuitem", "meta", "param", "source",
   "track", "wbr"]

end XmlBuilder2

namespace XmlBuilder2

/-! ### Prefix generation and namespace recording -/

/-- Generate a prefix: the concatenation of "ns" and the current prefix index,
increment the index, and add the binding to the map. -/
def generatePfx (newNamespace : Option String) (pfxMap : NamespacePfxMap)
    (pfxIndex : Nat) : String × NamespacePfxMap × Nat :=
  let generatedPfx := "ns" ++ toString pfxIndex
  (generatedPfx, pfxMap.set generatedPfx newNamespace, pfxIndex + 1)

/-- Record the namespace information of an element's attribute list: collect
prefix definitions into the map and the local prefixes map, and return the
default-namespace attribute value (none if no default declaration exists). -/
def recordNamespaceInformation :
    List XAttr → NamespacePfxMap → List (String × String) → Option String →
    NamespacePfxMap × List (String × String) × Option String
  | [], map, lpm, dflt => (map, lpm, dflt)
  | a :: rest, map, lpm, dflt =>
    if a.namespaceURI == some infraNamespace.XMLNS then
      match a.pfx with
      | none => recordNamespaceInformation rest map lpm (some a.value)
      | some _ =>
        let pfxDefinition := a.localName
        if a.value == infraNamespace.XML then
          recordNamespaceInformation rest map lpm dflt
        else
          let namespaceDefinition : Option String :=
            if a.value == "" then none else some a.value
          if map.has pfxDefinition namespaceDefinition then
            recordNamespaceInformation rest map lpm dflt
          else
            recordNamespaceInformation rest (map.set pfxDefinition namespaceDefinition)
              (assocSet lpm pfxDefinition (namespaceDefinition.getD "")) dflt
    else
      recordNamespaceInformation rest map lpm dflt

/-! ### Namespace-aware attribute serialization -/

/-- Process one attribute of the namespace-aware attribute loop, returning the
updated local name set, prefix map, prefix index, and the entries to append
(empty when the attribute is skipped, the namespace declaration plus the
attribute when a declaration is generated). -/
def serializeAttrStep (requireWellFormed noDoubleEncoding : Bool)
    (ignoreNamespaceDefinitionAttribute : Bool) (localPfxMap : List (String × String))
    (a : XAttr) (lns : LocalNameSet) (map : NamespacePfxMap) (idx : Nat) :
    Except String (LocalNameSet × NamespacePfxMap × Nat × List AttrEntry) :=
  if ! requireWellFormed && ! ignoreNamespaceDefinitionAttribute &&
      a.namespaceURI == none then do
    let v ← serializeAttributeValue (some a.value) requireWellFormed noDoubleEncoding
    .ok (lns, map, idx, [(none, none, a.localName, v)])
  else if requireWellFormed && lns.has a.namespaceURI a.localName then
    .error "Element contains duplicate attributes (well-formed required)."
  else
    let lns2 := if requireWellFormed then lns.set a.namespaceURI a.localName else lns
    let finish : Option String → NamespacePfxMap → Nat → List AttrEntry →
        Except String (LocalNameSet × NamespacePfxMap × Nat × List AttrEntry) :=
      fun candidatePfx map2 idx2 declEntries =>
        if requireWellFormed && (strIncludes a.localName ":" || ! xml_isName a.localName ||
            (a.localName == "xmlns" && a.namespaceURI == none)) then
          .error "Attribute local name contains invalid characters (well-formed required)."
        else do
          let v ← serializeAttributeValue (some a.value) requireWellFormed noDoubleEncoding
          .ok (lns2, map2, idx2, declEntries ++ [(a.namespaceURI, candidatePfx, a.localName, v)])
    match a.namespaceURI with
    | none => finish none map idx []
    | some ans =>
      let candidatePfx := map.get a.pfx (some ans)
      if ans == infraNamespace.XMLNS then
        if a.value == infraNamespace.XML ||
            (a.pfx == none && ignoreNamespaceDefinitionAttribute) ||
            (a.pfx != none &&
              (! assocHas localPfxMap a.localName ||
                ! (assocGet? localPfxMap a.localName == some a.value)) &&
              map.has a.localName (some a.value)) then
          .ok (lns2, map, idx, [])
        else if requireWellFormed && a.value == infraNamespace.XMLNS then
          .error "XMLNS namespace is reserved (well-formed required)."
        else if requireWellFormed && a.value == "" then
          .error "Namespace prefix declarations cannot be used to undeclare a namespace (well-formed required)."
        else
          finish (if a.pfx == some "xmlns" then some "xmlns" else candidatePfx) map idx []
      else if candidatePfx == none then
        match a.pfx with
        | some apfx =>
          if ! map.hasPfx apfx || map.has apfx (some ans) then do
            let v ← serializeAttributeValue (some ans) requireWellFormed noDoubleEncoding
            finish (some apfx) map idx [(none, some "xmlns", apfx, v)]
          else do
            let gp := generatePfx (some ans) map idx
            let v ← serializeAttributeValue (some ans) requireWellFormed noDoubleEncoding
            finish (some gp.1) gp.2.1 gp.2.2 [(none, some "xmlns", gp.1, v)]
        | none => do
          let gp := generatePfx (some ans) map idx
          let v ← serializeAttributeValue (some ans) requireWellFormed noDoubleEncoding
          finish (some gp.1) gp.2.1 gp.2.2 [(none, some "xmlns", gp.1, v)]
      else
        finish candidatePfx map idx []

/-- The namespace-aware attribute loop over an element's attribute list. -/
def serializeAttributesNSLoop (requireWellFormed noDoubleEncoding : Bool)
    (ignoreNamespaceDefinitionAttribute : Bool) (localPfxMap : List (String × String)) :
    List XAttr → LocalNameSet → NamespacePfxMap → Nat → List AttrEntry →
    Except String (List AttrEntry × NamespacePfxMap × Nat)
  | [], _, map, idx, acc => .ok (acc, map, idx)
  | a :: rest, lns, map, idx, acc => do
    let r ← serializeAttrStep requireWellFormed noDoubleEncoding
      ignoreNamespaceDefinitionAttribute localPfxMap a lns map idx
    serializeAttributesNSLoop requireWellFormed noDoubleEncoding
      ignoreNamespaceDefinitionAttribute localPfxMap rest r.1 r.2.1 r.2.2.1
      (acc ++ r.2.2.2)

/-- Namespace-aware serialization of an element's attributes. -/
def serializeAttributesNS (attrs : List XAttr) (map : NamespacePfxMap) (idx : Nat)
    (localPfxMap : List (String × String)) (ignoreNamespaceDefinitionAttribute : Bool)
    (requireWellFormed noDoubleEncoding : Bool) :
    Except String (List AttrEntry × NamespacePfxMap × Nat) :=
  serializeAttributesNSLoop requireWellFormed noDoubleEncoding
    ignoreNamespaceDefinitionAttribute localPfxMap attrs ⟨[]⟩ map idx []

/-! ### Namespace-unaware (fast path) attribute serialization -/

/-- The namespace-unaware attribute loop: localName-keyed duplicate detection
only, no namespace bookkeeping. -/
def serializeAttributesLoop (requireWellFormed noDoubleEncoding : Bool) :
    List XAttr → List String → List AttrEntry → Except String (List AttrEntry)
  | [], _, acc => .ok acc
  | a :: rest, lnsF, acc =>
    if ! requireWellFormed then do
      let v ← serializeAttributeValue (some a.value) requireWellFormed noDoubleEncoding
      serializeAttributesLoop requireWellFormed noDoubleEncoding rest lnsF
        (acc ++ [(none, none, a.localName, v)])
    else if lnsF.contains a.localName then
      .error "Element contains duplicate attributes (well-formed required)."
    else if strIncludes a.localName ":" || ! xml_isName a.localName then
      .error "Attribute local name contains invalid characters (well-formed required)."
    else do
      let v ← serializeAttributeValue (some a.value) requireWellFormed noDoubleEncoding
      serializeAttributesLoop requireWellFormed noDoubleEncoding rest
        (a.localName :: lnsF) (acc ++ [(none, none, a.localName, v)])

/-- Namespace-unaware serialization of an element's attributes. -/
def serializeAttributes (attrs : List XAttr) (requireWellFormed noDoubleEncoding : Bool) :
    Except String (List AttrEntry) :=
  serializeAttributesLoop requireWellFormed noDoubleEncoding attrs [] []

/-! ### Leaf node serializers (shared by both paths) -/

/-- Serialize a comment node. -/
def serializeComment (data : String) (requireWellFormed noDoubleEncoding : Bool) :
    Except String (List Event) :=
  if requireWellFormed && (! xml_isLegalChar data || strIncludes data "--" ||
      strEndsWith data "-") then
    .error "Comment data contains invalid characters (well-formed required)."
  else
    .ok [Event.comment data]

/-- Serialize a text node. -/
def serializeText (data : String) (requireWellFormed noDoubleEncoding : Bool) :
    Except String (List Event) :=
  if requireWellFormed && ! xml_isLegalChar data then
    .error "Text data contains invalid characters (well-formed required)."
  else
    .ok [Event.text (if noDoubleEncoding then escapeTextNoDouble data
                     else escapeTextDefault data)]

/-- Serialize a CDATA section node. -/
def serializeCData (data : String) (requireWellFormed noDoubleEncoding : Bool) :
    Except String (List Event) :=
  if requireWellFormed && strIncludes data "]]>" then
    .error "CDATA contains invalid characters (well-formed required)."
  else
    .ok [Event.cdata data]

/-- Serialize a processing instruction node. -/
def serializeProcessingInstruction (target data : String)
    (requireWellFormed noDoubleEncoding : Bool) : Except String (List Event) :=
  if requireWellFormed && (strIncludes target ":" ||
      (target.data.map Char.toLower) == ("xml").data) then
    .error "Processing instruction target contains invalid characters (well-formed required)."
  else if requireWellFormed && (! xml_isLegalChar data || strIncludes data "?>") then
    .error "Processing instruction data contains invalid characters (well-formed required)."
  else
    .ok [Event.instruction target data]

/-- Serialize a document type node. -/
def serializeDocumentType (name publicId systemId : String)
    (requireWellFormed noDoubleEncoding : Bool) : Except String (List Event) :=
  if requireWellFormed && ! xml_isPubidChar publicId then
    .error "DocType public identifier does not match PubidChar construct (well-formed required)."
  else if requireWellFormed && (! xml_isLegalChar systemId ||
      (strIncludes systemId "\"" && strIncludes systemId "'")) then
    .error "DocType system identifier contains invalid characters (well-formed required)."
  else
    .ok [Event.docType name publicId systemId]

/-! ### The namespace-aware tree walker -/

/-- The qualified-name resolution of namespace-aware element serialization
(steps 11 and 12 of the algorithm): given the element's namespace, prefix and
local name, the context namespace, the map and local prefixes map and default
namespace produced by recording, and the prefix index, produce the qualified
name, the element-level namespace declaration to emit (if any), the context
namespace for the children, the updated map and prefix index, and the
ignore-namespace-definition-attribute flag. -/
def serializeElementPre (ns p : Option String) (ln : String)
    (contextNS : Option String) (map : NamespacePfxMap)
    (localPfxMap : List (String × String)) (localDefaultNamespace : Option String)
    (pfxIndex : Nat) (requireWellFormed noDoubleEncoding : Bool) :
    Except String (String × List AttrEntry × Option String × NamespacePfxMap × Nat × Bool) :=
  let inheritedNS := contextNS
  if inheritedNS == ns then
    let ignoreF := localDefaultNamespace != none
    let qualifiedName := if ns == some infraNamespace.XML then "xml:" ++ ln else ln
    .ok (qualifiedName, [], inheritedNS, map, pfxIndex, ignoreF)
  else
    let candidatePfx0 : Option String :=
      if p != none || ns != localDefaultNamespace then map.get p ns else none
    if p == some "xmlns" && requireWellFormed then
      .error "An element cannot have the 'xmlns' prefix (well-formed required)."
    else
      let candidatePfx := if p == some "xmlns" then p else candidatePfx0
      match candidatePfx with
      | some cp =>
        let qualifiedName := cp ++ ":" ++ ln
        let inheritedNS2 :=
          if localDefaultNamespace != none &&
              localDefaultNamespace != some infraNamespace.XML then
            (if localDefaultNamespace == some "" then none else localDefaultNamespace)
          else inheritedNS
        .ok (qualifiedName, [], inheritedNS2, map, pfxIndex, false)
      | none =>
        match p with
        | some pv => do
          let gp :=
            if assocHas localPfxMap pv then generatePfx ns map pfxIndex
            else (pv, map, pfxIndex)
          let map3 := gp.2.1.set gp.1 ns
          let v ← serializeAttributeValue ns requireWellFormed noDoubleEncoding
          let qualifiedName := gp.1 ++ ":" ++ ln
          let inheritedNS2 :=
            if localDefaultNamespace != none then
              (if localDefaultNamespace == some "" then none else localDefaultNamespace)
            else inheritedNS
          .ok (qualifiedName, [(none, some "xmlns", gp.1, v)], inheritedNS2, map3,
            gp.2.2, false)
        | none =>
          if localDefaultNamespace == none || localDefaultNamespace != ns then do
            let v ← serializeAttributeValue ns requireWellFormed noDoubleEncoding
            .ok (ln, [(none, none, "xmlns", v)], ns, map, pfxIndex, true)
          else
            .ok (ln, [], ns, map, pfxIndex, false)

mutual

/-- Namespace-aware serialization of one node: dispatch on the node kind.
The returned Nat is the prefix index after the call (the index is shared by
reference in the source, modelled by threading it through every call). -/
def serializeNodeNS (node : XNode) (contextNS : Option String)
    (pfxMap : NamespacePfxMap) (pfxIndex : Nat)
    (requireWellFormed noDoubleEncoding : Bool) : Except String (List Event × Nat) :=
  match node with
  | .element ns p ln attrs children =>
    if requireWellFormed && (strIncludes ln ":" || ! xml_isName ln) then
      .error "Node local name contains invalid characters (well-formed required)."
    else
      let r := recordNamespaceInformation attrs (pfxMap.copy) [] none
      do
        let pre ← serializeElementPre ns p ln contextNS r.1 r.2.1 r.2.2 pfxIndex
          requireWellFormed noDoubleEncoding
        let ar ← serializeAttributesNS attrs pre.2.2.2.1 pre.2.2.2.2.1 r.2.1
          pre.2.2.2.2.2 requireWellFormed noDoubleEncoding
        let headEvents := [Event.beginElement pre.1, Event.openTagBegin pre.1,
          Event.attributes (pre.2.1 ++ ar.1)]
        let isHTML := ns == some infraNamespace.HTML
        if isHTML && children.isEmpty && VoidElementNames.contains ln then
          .ok (headEvents ++ [Event.openTagEnd pre.1 true true,
            Event.endElement pre.1], ar.2.2)
        else if ! isHTML && children.isEmpty then
          .ok (headEvents ++ [Event.openTagEnd pre.1 true false,
            Event.endElement pre.1], ar.2.2)
        else do
          let cr ←
            if isHTML && ln == "template" then Except.ok (([] : List Event), ar.2.2)
            else (serializeChildrenNS children pre.2.2.1 ar.2.1 ar.2.2
              requireWellFormed noDoubleEncoding)
          .ok (headEvents ++ [Event.openTagEnd pre.1 false false] ++ cr.1 ++
            [Event.closeTag pre.1, Event.endElement pre.1], cr.2)
  | .document children =>
    if requireWellFormed && ! children.any isElementNode then
      .error "Missing document element (well-formed required)."
    else
      serializeChildrenNS children contextNS pfxMap pfxIndex requireWellFormed noDoubleEncoding
  | .docFragment children =>
    serializeChildrenNS children contextNS pfxMap pfxIndex requireWellFormed noDoubleEncoding
  | .comment d => (serializeComment d requireWellFormed noDoubleEncoding).map (fun ev => (ev, pfxIndex))
  | .text d => (serializeText d requireWellFormed noDoubleEncoding).map (fun ev => (ev, pfxIndex))
  | .cdata d => (serializeCData d requireWellFormed noDoubleEncoding).map (fun ev => (ev, pfxIndex))
  | .instruction t d =>
    (serializeProcessingInstruction t d requireWellFormed noDoubleEncoding).map (fun ev => (ev, pfxIndex))
  | .doctype n pub sys =>
    (serializeDocumentType n pub sys requireWellFormed noDoubleEncoding).map (fun ev => (ev, pfxIndex))
  | .other t => .error ("Unknown node type: " ++ toString t)
termination_by structural node

/-- Namespace-aware serialization of a list of children in tree order; each
child receives the same context namespace and prefix map, while the prefix
index is threaded from one child to the next. -/
def serializeChildrenNS (children : List XNode) (contextNS : Option String)
    (pfxMap : NamespacePfxMap) (pfxIndex : Nat)
    (requireWellFormed noDoubleEncoding : Bool) : Except String (List Event × Nat) :=
  match children with
  | [] => .ok ([], pfxIndex)
  | c :: cs => do
    let r1 ← serializeNodeNS c contextNS pfxMap pfxIndex requireWellFormed noDoubleEncoding
    let r2 ← serializeChildrenNS cs contextNS pfxMap r1.2 requireWellFormed noDoubleEncoding
    .ok (r1.1 ++ r2.1, r2.2)
termination_by structural children

end


/-! ### The namespace-unaware fast path -/

mutual

/-- Namespace-unaware serialization of one node (used when the owning document
has no namespaced nodes anywhere). -/
def serializeNodeFast (node : XNode) (requireWellFormed noDoubleEncoding : Bool) :
    Except String (List Event) :=
  match node with
  | .element _ _ ln attrs children =>
    if requireWellFormed && (strIncludes ln ":" || ! xml_isName ln) then
      .error "Node local name contains invalid characters (well-formed required)."
    else do
      let attrEntries ← serializeAttributes attrs requireWellFormed noDoubleEncoding
      let headEvents := [Event.beginElement ln, Event.openTagBegin ln,
        Event.attributes attrEntries]
      if children.isEmpty then
        .ok (headEvents ++ [Event.openTagEnd ln true false, Event.endElement ln])
      else do
        let childEvents ← serializeChildrenFast children requireWellFormed noDoubleEncoding
        .ok (headEvents ++ [Event.openTagEnd ln false false] ++ childEvents ++
          [Event.closeTag ln, Event.endElement ln])
  | .document children =>
    if requireWellFormed && ! children.any isElementNode then
      .error "Missing document element (well-formed required)."
    else
      serializeChildrenFast children requireWellFormed noDoubleEncoding
  | .docFragment children => serializeChildrenFast children requireWellFormed noDoubleEncoding
  | .comment d => serializeComment d requireWellFormed noDoubleEncoding
  | .text d => serializeText d requireWellFormed noDoubleEncoding
  | .cdata d => serializeCData d requireWellFormed noDoubleEncoding
  | .instruction t d => serializeProcessingInstruction t d requireWellFormed noDoubleEncoding
  | .doctype n pub sys => serializeDocumentType n pub sys requireWellFormed noDoubleEncoding
  | .other t => .error ("Unknown node type: " ++ toString t)
termination_by structural node

/-- Namespace-unaware serialization of a list of children in tree order. -/
def serializeChildrenFast (children : List XNode) (requireWellFormed noDoubleEncoding : Bool) :
    Except String (List Event) :=
  match children with
  | [] => .ok []
  | c :: cs => do
    let ev1 ← serializeNodeFast c requireWellFormed noDoubleEncoding
    let ev2 ← serializeChildrenFast cs requireWellFormed noDoubleEncoding
    .ok (ev1 ++ ev2)
termination_by structural children

end

/-! ### The serialization entry point -/

/-- The error surfaced at the entry point: any exception raised during the
algorithm is caught and re-signalled as an InvalidStateError wrapping the
original message. -/
inductive DOMErr where
  | invalidState (message : String)
deriving DecidableEq, Repr

/-- The prefix map at the start of a call: one entry binding the prefix xml
to the XML namespace. -/
def initialPfxMap : NamespacePfxMap :=
  NamespacePfxMap.set ⟨[]⟩ "xml" (some infraNamespace.XML)

/-- The entry point serializeNode: choose the namespace-aware path or the
fast path according to the document's hasNamespaces flag, starting from a
null context namespace, the initial prefix map and prefix index 1, and wrap
any raised error into the uniform invalid-state error. -/
def serializeNode (node : XNode) (hasNamespaces requireWellFormed noDoubleEncoding : Bool) :
    Except DOMErr (List Event) :=
  if hasNamespaces then
    match serializeNodeNS node none initialPfxMap 1 requireWellFormed noDoubleEncoding with
    | .ok r => .ok r.1
    | .error e => .error (DOMErr.invalidState e)
  else
    match serializeNodeFast node requireWellFormed noDoubleEncoding with
    | .ok ev => .ok ev
    | .error e => .error (DOMErr.invalidState e)


/-! ### Instrumented serializer with a prefix-generation log

The following definitions repeat the namespace-aware serializer verbatim,
additionally returning the list of prefix generations performed, in order:
each entry records the generated prefix string, the prefix-index value it was
generated from, and the namespace it was generated for.  The projection that
forgets the log is proved equal to the plain serializer below. -/

/-- One recorded prefix generation: (generated prefix, index used, namespace). -/
abbrev GenEntry := String × Nat × Option String

/-- Instrumented prefix generation: as generatePfx, also returning the log entry. -/
def generatePfxG (newNamespace : Option String) (pfxMap : NamespacePfxMap)
    (pfxIndex : Nat) : (String × NamespacePfxMap × Nat) × GenEntry :=
  (generatePfx newNamespace pfxMap pfxIndex,
   ("ns" ++ toString pfxIndex, pfxIndex, newNamespace))

/-- Instrumented attribute step: as serializeAttrStep, also returning the log. -/
def serializeAttrStepG (requireWellFormed noDoubleEncoding : Bool)
    (ignoreNamespaceDefinitionAttribute : Bool) (localPfxMap : List (String × String))
    (a : XAttr) (lns : LocalNameSet) (map : NamespacePfxMap) (idx : Nat) :
    Except String (LocalNameSet × NamespacePfxMap × Nat × List AttrEntry × List GenEntry) :=
  if ! requireWellFormed && ! ignoreNamespaceDefinitionAttribute &&
      a.namespaceURI == none then do
    let v ← serializeAttributeValue (some a.value) requireWellFormed noDoubleEncoding
    .ok (lns, map, idx, [(none, none, a.localName, v)], [])
  else if requireWellFormed && lns.has a.namespaceURI a.localName then
    .error "Element contains duplicate attributes (well-formed required)."
  else
    let lns2 := if requireWellFormed then lns.set a.namespaceURI a.localName else lns
    let finish : Option String → NamespacePfxMap → Nat → List AttrEntry → List GenEntry →
        Except String (LocalNameSet × NamespacePfxMap × Nat × List AttrEntry × List GenEntry) :=
      fun candidatePfx map2 idx2 declEntries lg =>
        if requireWellFormed && (strIncludes a.localName ":" || ! xml_isName a.localName ||
            (a.localName == "xmlns" && a.namespaceURI == none)) then
          .error "Attribute local name contains invalid characters (well-formed required)."
        else do
          let v ← serializeAttributeValue (some a.value) requireWellFormed noDoubleEncoding
          .ok (lns2, map2, idx2,
            declEntries ++ [(a.namespaceURI, candidatePfx, a.localName, v)], lg)
    match a.namespaceURI with
    | none => finish none map idx [] []
    | some ans =>
      let candidatePfx := map.get a.pfx (some ans)
      if ans == infraNamespace.XMLNS then
        if a.value == infraNamespace.XML ||
            (a.pfx == none && ignoreNamespaceDefinitionAttribute) ||
            (a.pfx != none &&
              (! assocHas localPfxMap a.localName ||
                ! (assocGet? localPfxMap a.localName == some a.value)) &&
              map.has a.localName (some a.value)) then
          .ok (lns2, map, idx, [], [])
        else if requireWellFormed && a.value == infraNamespace.XMLNS then
          .error "XMLNS namespace is reserved (well-formed required)."
        else if requireWellFormed && a.value == "" then
          .error "Namespace prefix declarations cannot be used to undeclare a namespace (well-formed required)."
        else
          finish (if a.pfx == some "xmlns" then some "xmlns" else candidatePfx) map idx [] []
      else if candidatePfx == none then
        match a.pfx with
        | some apfx =>
          if ! map.hasPfx apfx || map.has apfx (some ans) then do
            let v ← serializeAttributeValue (some ans) requireWellFormed noDoubleEncoding
            finish (some apfx) map idx [(none, some "xmlns", apfx, v)] []
          else do
            let gpl := generatePfxG (some ans) map idx
            let v ← serializeAttributeValue (some ans) requireWellFormed noDoubleEncoding
            finish (some gpl.1.1) gpl.1.2.1 gpl.1.2.2
              [(none, some "xmlns", gpl.1.1, v)] [gpl.2]
        | none => do
          let gpl := generatePfxG (some ans) map idx
          let v ← serializeAttributeValue (some ans) requireWellFormed noDoubleEncoding
          finish (some gpl.1.1) gpl.1.2.1 gpl.1.2.2
            [(none, some "xmlns", gpl.1.1, v)] [gpl.2]
      else
        finish candidatePfx map idx [] []

/-- Instrumented namespace-aware attribute loop. -/
def serializeAttributesNSLoopG (requireWellFormed noDoubleEncoding : Bool)
    (ignoreNamespaceDefinitionAttribute : Bool) (localPfxMap : List (String × String)) :
    List XAttr → LocalNameSet → NamespacePfxMap → Nat → List AttrEntry → List GenEntry →
    Except String (List AttrEntry × NamespacePfxMap × Nat × List GenEntry)
  | [], _, map, idx, acc, lg => .ok (acc, map, idx, lg)
  | a :: rest, lns, map, idx, acc, lg => do
    let r ← serializeAttrStepG requireWellFormed noDoubleEncoding
      ignoreNamespaceDefinitionAttribute localPfxMap a lns map idx
    serializeAttributesNSLoopG requireWellFormed noDoubleEncoding
      ignoreNamespaceDefinitionAttribute localPfxMap rest r.1 r.2.1 r.2.2.1
      (acc ++ r.2.2.2.1) (lg ++ r.2.2.2.2)

/-- Instrumented namespace-aware serialization of an element's attributes. -/
def serializeAttributesNSG (attrs : List XAttr) (map : NamespacePfxMap) (idx : Nat)
    (localPfxMap : List (String × String)) (ignoreNamespaceDefinitionAttribute : Bool)
    (requireWellFormed noDoubleEncoding : Bool) :
    Except String (List AttrEntry × NamespacePfxMap × Nat × List GenEntry) :=
  serializeAttributesNSLoopG requireWellFormed noDoubleEncoding
    ignoreNamespaceDefinitionAttribute localPfxMap attrs ⟨[]⟩ map idx [] []

/-- Instrumented qualified-name resolution: as serializeElementPre, also
returning the prefix-generation log. -/
def serializeElementPreG (ns p : Option String) (ln : String)
    (contextNS : Option String) (map : NamespacePfxMap)
    (localPfxMap : List (String × String)) (localDefaultNamespace : Option String)
    (pfxIndex : Nat) (requireWellFormed noDoubleEncoding : Bool) :
    Except String (String × List AttrEntry × Option String × NamespacePfxMap × Nat ×
      Bool × List GenEntry) :=
  let inheritedNS := contextNS
  if inheritedNS == ns then
    let ignoreF := localDefaultNamespace != none
    let qualifiedName := if ns == some infraNamespace.XML then "xml:" ++ ln else ln
    .ok (qualifiedName, [], inheritedNS, map, pfxIndex, ignoreF, [])
  else
    let candidatePfx0 : Option String :=
      if p != none || ns != localDefaultNamespace then map.get p ns else none
    if p == some "xmlns" && requireWellFormed then
      .error "An element cannot have the 'xmlns' prefix (well-formed required)."
    else
      let candidatePfx := if p == some "xmlns" then p else candidatePfx0
      match candidatePfx with
      | some cp =>
        let qualifiedName := cp ++ ":" ++ ln
        let inheritedNS2 :=
          if localDefaultNamespace != none &&
              localDefaultNamespace != some infraNamespace.XML then
            (if localDefaultNamespace == some "" then none else localDefaultNamespace)
          else inheritedNS
        .ok (qualifiedName, [], inheritedNS2, map, pfxIndex, false, [])
      | none =>
        match p with
        | some pv => do
          let gpl : (String × NamespacePfxMap × Nat) × List GenEntry :=
            if assocHas localPfxMap pv then
              ((generatePfxG ns map pfxIndex).1, [(generatePfxG ns map pfxIndex).2])
            else ((pv, map, pfxIndex), [])
          let gp := gpl.1
          let map3 := gp.2.1.set gp.1 ns
          let v ← serializeAttributeValue ns requireWellFormed noDoubleEncoding
          let qualifiedName := gp.1 ++ ":" ++ ln
          let inheritedNS2 :=
            if localDefaultNamespace != none then
              (if localDefaultNamespace == some "" then none else localDefaultNamespace)
            else inheritedNS
          .ok (qualifiedName, [(none, some "xmlns", gp.1, v)], inheritedNS2, map3,
            gp.2.2, false, gpl.2)
        | none =>
          if localDefaultNamespace == none || localDefaultNamespace != ns then do
            let v ← serializeAttributeValue ns requireWellFormed noDoubleEncoding
            .ok (ln, [(none, none, "xmlns", v)], ns, map, pfxIndex, true, [])
          else
            .ok (ln, [], ns, map, pfxIndex, false, [])

mutual

/-- Instrumented namespace-aware serialization of one node. -/
def serializeNodeNSG (node : XNode) (contextNS : Option String)
    (pfxMap : NamespacePfxMap) (pfxIndex : Nat)
    (requireWellFormed noDoubleEncoding : Bool) :
    Except String (List Event × Nat × List GenEntry) :=
  match node with
  | .element ns p ln attrs children =>
    if requireWellFormed && (strIncludes ln ":" || ! xml_isName ln) then
      .error "Node local name contains invalid characters (well-formed required)."
    else
      let r := recordNamespaceInformation attrs (pfxMap.copy) [] none
      do
        let pre ← serializeElementPreG ns p ln contextNS r.1 r.2.1 r.2.2 pfxIndex
          requireWellFormed noDoubleEncoding
        let ar ← serializeAttributesNSG attrs pre.2.2.2.1 pre.2.2.2.2.1 r.2.1
          pre.2.2.2.2.2.1 requireWellFormed noDoubleEncoding
        let headEvents := [Event.beginElement pre.1, Event.openTagBegin pre.1,
          Event.attributes (pre.2.1 ++ ar.1)]
        let isHTML := ns == some infraNamespace.HTML
        if isHTML && children.isEmpty && VoidElementNames.contains ln then
          .ok (headEvents ++ [Event.openTagEnd pre.1 true true,
            Event.endElement pre.1], ar.2.2.1, pre.2.2.2.2.2.2 ++ ar.2.2.2)
        else if ! isHTML && children.isEmpty then
          .ok (headEvents ++ [Event.openTagEnd pre.1 true false,
            Event.endElement pre.1], ar.2.2.1, pre.2.2.2.2.2.2 ++ ar.2.2.2)
        else do
          let cr ←
            if isHTML && ln == "template" then
              Except.ok (([] : List Event), ar.2.2.1, ([] : List GenEntry))
            else (serializeChildrenNSG children pre.2.2.1 ar.2.1 ar.2.2.1
              requireWellFormed noDoubleEncoding)
          .ok (headEvents ++ [Event.openTagEnd pre.1 false false] ++ cr.1 ++
            [Event.closeTag pre.1, Event.endElement pre.1], cr.2.1,
            pre.2.2.2.2.2.2 ++ ar.2.2.2 ++ cr.2.2)
  | .document children =>
    if requireWellFormed && ! children.any isElementNode then
      .error "Missing document element (well-formed required)."
    else
      serializeChildrenNSG children contextNS pfxMap pfxIndex requireWellFormed noDoubleEncoding
  | .docFragment children =>
    serializeChildrenNSG children contextNS pfxMap pfxIndex requireWellFormed noDoubleEncoding
  | .comment d =>
    (serializeComment d requireWellFormed noDoubleEncoding).map (fun ev => (ev, pfxIndex, []))
  | .text d =>
    (serializeText d requireWellFormed noDoubleEncoding).map (fun ev => (ev, pfxIndex, []))
  | .cdata d =>
    (serializeCData d requireWellFormed noDoubleEncoding).map (fun ev => (ev, pfxIndex, []))
  | .instruction t d =>
    (serializeProcessingInstruction t d requireWellFormed noDoubleEncoding).map
      (fun ev => (ev, pfxIndex, []))
  | .doctype n pub sys =>
    (serializeDocumentType n pub sys requireWellFormed noDoubleEncoding).map
      (fun ev => (ev, pfxIndex, []))
  | .other t => .error ("Unknown node type: " ++ toString t)
termination_by structural node

/-- Instrumented namespace-aware serialization of a list of children. -/
def serializeChildrenNSG (children : List XNode) (contextNS : Option String)
    (pfxMap : NamespacePfxMap) (pfxIndex : Nat)
    (requireWellFormed noDoubleEncoding : Bool) :
    Except String (List Event × Nat × List GenEntry) :=
  match children with
  | [] => .ok ([], pfxIndex, [])
  | c :: cs => do
    let r1 ← serializeNodeNSG c contextNS pfxMap pfxIndex requireWellFormed noDoubleEncoding
    let r2 ← serializeChildrenNSG cs contextNS pfxMap r1.2.1 requireWellFormed noDoubleEncoding
    .ok (r1.1 ++ r2.1, r2.2.1, r1.2.2 ++ r2.2.2)
termination_by structural children

end


/-! ### A store-based model of prefix-map copying

To state the frame property of NamespacePrefixMap.copy as it behaves in the
mutable source (mutation through one reference must not be visible through
another), the maps are modelled as slots of an explicit store addressed by
identifiers; copy allocates a fresh slot seeded with the current entries. -/

/-- Modelled from the spec: a store of namespace prefix maps; each slot holds
the entry list of one map object, addressed by its index. -/
structure PfxMapStore where
  maps : List (List (String × Option String))
deriving DecidableEq, Repr

/-- The entries held by the map object with the given identifier. -/
def PfxMapStore.entriesOf (s : PfxMapStore) (id : Nat) : List (String × Option String) :=
  s.maps.getD id []

/-- Modelled from the spec: copy produces an independent map seeded with the
current entries — a fresh slot containing the same entry list. -/
def PfxMapStore.copyM (s : PfxMapStore) (id : Nat) : Nat × PfxMapStore :=
  (s.maps.length, ⟨s.maps ++ [s.entriesOf id]⟩)

/-- Modelled from the spec: set on one map object (overwriting the binding of
the prefix), mutating only that object's slot. -/
def PfxMapStore.setM (s : PfxMapStore) (id : Nat) (p : String) (ns : Option String) :
    PfxMapStore :=
  ⟨s.maps.set id ((p, ns) :: (s.entriesOf id).filter (fun e => ! (e.1 == p)))⟩

/-- Apply a sequence of set operations to one map object of the store. -/
def PfxMapStore.applyWrites (s : PfxMapStore) (id : Nat) :
    List (String × Option String) → PfxMapStore
  | [] => s
  | w :: ws => (s.setM id w.1 w.2).applyWrites id ws

/-! ### Document.createProcessingInstruction -/

/-- The DOMError kinds raised by the Document node factory methods. -/
inductive DocDOMError where
  | invalidCharacterError
  | namespaceError
  | notSupportedError
deriving DecidableEq, Repr

/-- A processing instruction node as returned by the factory. -/
structure PINode where
  target : String
  data : String
deriving DecidableEq, Repr

/-- Document.createProcessingInstruction: reject the target when it does not
match the Name production, reject the data when it does not contain the
substring "?>", and otherwise return a new ProcessingInstruction node.
(The Name production predicate is modelled from the spec, as the XMLSpec10
grammar module is not part of these sources.) -/
def createProcessingInstruction (target data : String) :
    Except DocDOMError PINode :=
  if ! xml_isName target then .error DocDOMError.invalidCharacterError
  else if ! strIncludes data "?>" then .error DocDOMError.invalidCharacterError
  else .ok ⟨target, data⟩

/-! ### The well-formedness violation messages of the serializer -/

/-- The messages of every well-formedness violation the serialization
algorithm can raise (each is raised only when requireWellFormed is set). -/
def wellFormednessMessages : List String :=
  ["Node local name contains invalid characters (well-formed required).",
   "An element cannot have the 'xmlns' prefix (well-formed required).",
   "Element contains duplicate attributes (well-formed required).",
   "XMLNS namespace is reserved (well-formed required).",
   "Namespace prefix declarations cannot be used to undeclare a namespace (well-formed required).",
   "Attribute local name contains invalid characters (well-formed required).",
   "Missing document element (well-formed required).",
   "Comment data contains invalid characters (well-formed required).",
   "Text data contains invalid characters (well-formed required).",
   "CDATA contains invalid characters (well-formed required).",
   "Processing instruction target contains invalid characters (well-formed required).",
   "Processing instruction data contains invalid characters (well-formed required).",
   "DocType public identifier does not match PubidChar construct (well-formed required).",
   "DocType system identifier contains invalid characters (well-formed required).",
   "Invalid characters in attribute value."]

/-! ### Namespace-free trees (for the fast-path equivalence) -/

/-- Whether an attribute carries no namespace URI. -/
def nsFreeAttr (a : XAttr) : Bool := a.namespaceURI == none

mutual

/-- Whether no element and no attribute of the tree carries a namespace URI. -/
def nsFreeNode : XNode → Bool
  | .element ns _ _ attrs children =>
    ns == none && attrs.all nsFreeAttr && nsFreeChildren children
  | .document children => nsFreeChildren children
  | .docFragment children => nsFreeChildren children
  | _ => true

/-- Namespace-freedom of a list of children. -/
def nsFreeChildren : List XNode → Bool
  | [] => true
  | c :: cs => nsFreeNode c && nsFreeChildren cs

end

mutual

/-- Whether no attribute in the tree has the local name xmlns. -/
def noXmlnsNamedAttrNode : XNode → Bool
  | .element _ _ _ attrs children =>
    attrs.all (fun a => ! (a.localName == "xmlns")) && noXmlnsNamedAttrChildren children
  | .document children => noXmlnsNamedAttrChildren children
  | .docFragment children => noXmlnsNamedAttrChildren children
  | _ => true

/-- The same, over a list of children. -/
def noXmlnsNamedAttrChildren : List XNode → Bool
  | [] => true
  | c :: cs => noXmlnsNamedAttrNode c && noXmlnsNamedAttrChildren cs

end

end XmlBuilder2


namespace XmlBuilder2

theorem toString_eq_repr (n : Nat) : toString n = Nat.repr n := rfl

/-- Well-formedness of a prefix-generation log produced between index i and
index i2: the index grew, every entry records a prefix of the form ns
followed by its index, all indices lie in the interval, and the indices are
strictly increasing in generation order. -/
def GoodLog (i i2 : Nat) (log : List GenEntry) : Prop :=
  i ≤ i2 ∧
  (∀ e ∈ log, e.1 = "ns" ++ Nat.repr e.2.1 ∧ i ≤ e.2.1 ∧ e.2.1 < i2) ∧
  List.Chain' (fun a b => a.2.1 < b.2.1) log

theorem GoodLog.nil {i i2 : Nat} (h : i ≤ i2) : GoodLog i i2 [] := by
  refine ⟨h, by simp, by simp⟩

theorem GoodLog.single {i : Nat} (ns : Option String) :
    GoodLog i (i + 1) [("ns" ++ toString i, i, ns)] := by
  refine ⟨by omega, ?_, by simp⟩
  intro e he
  simp only [List.mem_singleton] at he
  subst he
  refine ⟨by rw [toString_eq_repr], by simp, by simp⟩

theorem GoodLog.append {i j k : Nat} {l1 l2 : List GenEntry}
    (h1 : GoodLog i j l1) (h2 : GoodLog j k l2) : GoodLog i k (l1 ++ l2) := by
  obtain ⟨hij, hb1, hc1⟩ := h1
  obtain ⟨hjk, hb2, hc2⟩ := h2
  refine ⟨le_trans hij hjk, ?_, ?_⟩
  · intro e he
    rcases List.mem_append.mp he with h | h
    · obtain ⟨hf, hlo, hhi⟩ := hb1 e h
      exact ⟨hf, hlo, lt_of_lt_of_le hhi hjk⟩
    · obtain ⟨hf, hlo, hhi⟩ := hb2 e h
      exact ⟨hf, le_trans hij hlo, hhi⟩
  · refine List.Chain'.append hc1 hc2 ?_
    intro x hx y hy
    have hxm : x ∈ l1 := List.mem_of_mem_getLast? hx
    have hym : y ∈ l2 := List.mem_of_mem_head? hy
    have := (hb1 x hxm).2.2
    have := (hb2 y hym).2.1
    omega

theorem GoodLog.mono {i0 i i2 : Nat} {log : List GenEntry} (h : GoodLog i i2 log)
    (hle : i0 ≤ i) : GoodLog i0 i2 log := by
  obtain ⟨h1, h2, h3⟩ := h
  exact ⟨le_trans hle h1,
    fun e he => ⟨(h2 e he).1, le_trans hle (h2 e he).2.1, (h2 e he).2.2⟩, h3⟩

/-- Correspondence between an instrumented result and the plain result. -/
def ErasesTo {α : Type} (g : Except String (α × Nat × List GenEntry))
    (p : Except String (α × Nat)) (i : Nat) : Prop :=
  match g with
  | .ok r => p = .ok (r.1, r.2.1) ∧ GoodLog i r.2.1 r.2.2
  | .error e => p = .error e

/-- Correspondence for the attribute-step result shape. -/
def ErasesToA (g : Except String (LocalNameSet × NamespacePfxMap × Nat × List AttrEntry × List GenEntry))
    (p : Except String (LocalNameSet × NamespacePfxMap × Nat × List AttrEntry)) (i : Nat) : Prop :=
  match g with
  | .ok r => p = .ok (r.1, r.2.1, r.2.2.1, r.2.2.2.1) ∧ GoodLog i r.2.2.1 r.2.2.2.2
  | .error e => p = .error e

/-- Correspondence for the attribute-loop result shape. -/
def ErasesToL (g : Except String (List AttrEntry × NamespacePfxMap × Nat × List GenEntry))
    (p : Except String (List AttrEntry × NamespacePfxMap × Nat)) (i : Nat) : Prop :=
  match g with
  | .ok r => p = .ok (r.1, r.2.1, r.2.2.1) ∧ GoodLog i r.2.2.1 r.2.2.2
  | .error e => p = .error e

/-- Correspondence for the element-pre result shape. -/
def ErasesToP (g : Except String (String × List AttrEntry × Option String ×
      NamespacePfxMap × Nat × Bool × List GenEntry))
    (p : Except String (String × List AttrEntry × Option String ×
      NamespacePfxMap × Nat × Bool)) (i : Nat) : Prop :=
  match g with
  | .ok r => p = .ok (r.1, r.2.1, r.2.2.1, r.2.2.2.1, r.2.2.2.2.1, r.2.2.2.2.2.1) ∧
      GoodLog i r.2.2.2.2.1 r.2.2.2.2.2.2
  | .error e => p = .error e

theorem bindOk {α β γ : Type} (a : α) (f : α → Except γ β) :
    (Except.ok a : Except γ α) >>= f = f a := rfl

theorem bindError {α β γ : Type} (e : γ) (f : α → Except γ β) :
    (Except.error e : Except γ α) >>= f = Except.error e := rfl

end XmlBuilder2

namespace XmlBuilder2

/-- Erasure and log well-formedness for the shared emit tail of one
attribute step. -/
theorem finishPair (rwf nde : Bool) (ln : String) (ansOpt : Option String)
    (aval : String) (lns2 : LocalNameSet) (cand : Option String)
    (map2 : NamespacePfxMap) (i idx2 : Nat) (declE : List AttrEntry)
    (lg : List GenEntry) (h : GoodLog i idx2 lg) :
    ErasesToA
      (if rwf && (strIncludes ln ":" || ! xml_isName ln ||
          (ln == "xmlns" && ansOpt == none)) then
        Except.error "Attribute local name contains invalid characters (well-formed required)."
      else do
        let v ← serializeAttributeValue (some aval) rwf nde
        Except.ok (lns2, map2, idx2, declE ++ [(ansOpt, cand, ln, v)], lg))
      (if rwf && (strIncludes ln ":" || ! xml_isName ln ||
          (ln == "xmlns" && ansOpt == none)) then
        Except.error "Attribute local name contains invalid characters (well-formed required)."
      else do
        let v ← serializeAttributeValue (some aval) rwf nde
        Except.ok (lns2, map2, idx2, declE ++ [(ansOpt, cand, ln, v)]))
      i := by
  by_cases hcond : (rwf && (strIncludes ln ":" || ! xml_isName ln ||
      (ln == "xmlns" && ansOpt == none))) = true
  · rw [if_pos hcond, if_pos hcond]
    simp [ErasesToA]
  · rw [if_neg hcond, if_neg hcond]
    cases hsv : serializeAttributeValue (some aval) rwf nde with
    | ok v => simp [hsv, bindOk, ErasesToA, h]
    | error e => simp [hsv, bindError, ErasesToA]

/-- Erasure and log well-formedness for one attribute step. -/
theorem attrStep_erase (rwf nde ign : Bool) (lpm : List (String × String)) (a : XAttr)
    (lns : LocalNameSet) (map : NamespacePfxMap) (idx : Nat) :
    ErasesToA (serializeAttrStepG rwf nde ign lpm a lns map idx)
      (serializeAttrStep rwf nde ign lpm a lns map idx) idx := by
  simp only [serializeAttrStepG, serializeAttrStep]
  by_cases hc1 : (!rwf && !ign && a.namespaceURI == none) = true
  · rw [if_pos hc1, if_pos hc1]
    cases hsv : serializeAttributeValue (some a.value) rwf nde with
    | ok v => simp [hsv, bindOk, ErasesToA, GoodLog.nil]
    | error e => simp [hsv, bindError, ErasesToA]
  · rw [if_neg hc1, if_neg hc1]
    by_cases hc2 : (rwf && lns.has a.namespaceURI a.localName) = true
    · rw [if_pos hc2, if_pos hc2]
      simp [ErasesToA]
    · rw [if_neg hc2, if_neg hc2]
      cases hns : a.namespaceURI with
      | none =>
        dsimp only
        exact finishPair rwf nde a.localName none a.value _ none map idx idx [] []
          (GoodLog.nil le_rfl)
      | some ans =>
        dsimp only
        by_cases hx : (ans == infraNamespace.XMLNS) = true
        · rw [if_pos hx, if_pos hx]
          by_cases hskip : (a.value == infraNamespace.XML ||
              (a.pfx == none && ign) ||
              (a.pfx != none &&
                (! assocHas lpm a.localName ||
                  ! (assocGet? lpm a.localName == some a.value)) &&
                map.has a.localName (some a.value))) = true
          · rw [if_pos hskip, if_pos hskip]
            simp [ErasesToA, GoodLog.nil]
          · rw [if_neg hskip, if_neg hskip]
            by_cases hres : (rwf && a.value == infraNamespace.XMLNS) = true
            · rw [if_pos hres, if_pos hres]
              simp [ErasesToA]
            · rw [if_neg hres, if_neg hres]
              by_cases hund : (rwf && a.value == "") = true
              · rw [if_pos hund, if_pos hund]
                simp [ErasesToA]
              · rw [if_neg hund, if_neg hund]
                exact finishPair rwf nde a.localName (some ans) a.value _ _ map idx idx [] []
                  (GoodLog.nil le_rfl)
        · rw [if_neg hx, if_neg hx]
          by_cases hcp : (map.get a.pfx (some ans) == none) = true
          · rw [if_pos hcp, if_pos hcp]
            cases hap : a.pfx with
            | some apfx =>
              dsimp only
              by_cases hreuse : (! map.hasPfx apfx || map.has apfx (some ans)) = true
              · rw [if_pos hreuse, if_pos hreuse]
                cases hsv : serializeAttributeValue (some ans) rwf nde with
                | ok v =>
                  simp only [hsv, bindOk]
                  exact finishPair rwf nde a.localName (some ans) a.value _ (some apfx) map
                    idx idx [(none, some "xmlns", apfx, v)] [] (GoodLog.nil le_rfl)
                | error e => simp [hsv, bindError, ErasesToA]
              · rw [if_neg hreuse, if_neg hreuse]
                simp only [generatePfxG, generatePfx]
                cases hsv : serializeAttributeValue (some ans) rwf nde with
                | ok v =>
                  simp only [hsv, bindOk]
                  exact finishPair rwf nde a.localName (some ans) a.value _
                    (some ("ns" ++ toString idx)) _ idx (idx + 1)
                    [(none, some "xmlns", "ns" ++ toString idx, v)] _ (GoodLog.single _)
                | error e => simp [hsv, bindError, ErasesToA]
            | none =>
              dsimp only
              simp only [generatePfxG, generatePfx]
              cases hsv : serializeAttributeValue (some ans) rwf nde with
              | ok v =>
                simp only [hsv, bindOk]
                exact finishPair rwf nde a.localName (some ans) a.value _
                  (some ("ns" ++ toString idx)) _ idx (idx + 1)
                  [(none, some "xmlns", "ns" ++ toString idx, v)] _ (GoodLog.single _)
              | error e => simp [hsv, bindError, ErasesToA]
          · rw [if_neg hcp, if_neg hcp]
            exact finishPair rwf nde a.localName (some ans) a.value _ _ map idx idx [] []
              (GoodLog.nil le_rfl)

/-- Erasure and log well-formedness for the attribute loop. -/
theorem attrLoop_erase (rwf nde ign : Bool) (lpm : List (String × String)) :
    ∀ (attrs : List XAttr) (lns : LocalNameSet) (map : NamespacePfxMap) (idx : Nat)
      (acc : List AttrEntry) (i0 : Nat) (lg : List GenEntry), GoodLog i0 idx lg →
    ErasesToL (serializeAttributesNSLoopG rwf nde ign lpm attrs lns map idx acc lg)
      (serializeAttributesNSLoop rwf nde ign lpm attrs lns map idx acc) i0
  | [], lns, map, idx, acc, i0, lg, h => by
    simp [serializeAttributesNSLoopG, serializeAttributesNSLoop, ErasesToL, h]
  | a :: rest, lns, map, idx, acc, i0, lg, h => by
    simp only [serializeAttributesNSLoopG, serializeAttributesNSLoop]
    have hstep := attrStep_erase rwf nde ign lpm a lns map idx
    cases hg : serializeAttrStepG rwf nde ign lpm a lns map idx with
    | error e =>
      rw [hg] at hstep
      simp only [ErasesToA] at hstep
      simp [hg, hstep, bindError, ErasesToL]
    | ok r =>
      rw [hg] at hstep
      simp only [ErasesToA] at hstep
      obtain ⟨hp, hgl⟩ := hstep
      rw [hp]
      simp only [bindOk]
      exact attrLoop_erase rwf nde ign lpm rest r.1 r.2.1 r.2.2.1 (acc ++ r.2.2.2.1) i0
        (lg ++ r.2.2.2.2) (GoodLog.append h hgl)

/-- Erasure and log well-formedness for an element's attribute pass. -/
theorem attrsNS_erase (attrs : List XAttr) (map : NamespacePfxMap) (idx : Nat)
    (lpm : List (String × String)) (ign rwf nde : Bool) :
    ErasesToL (serializeAttributesNSG attrs map idx lpm ign rwf nde)
      (serializeAttributesNS attrs map idx lpm ign rwf nde) idx := by
  exact attrLoop_erase rwf nde ign lpm attrs ⟨[]⟩ map idx [] idx [] (GoodLog.nil le_rfl)

/-- Erasure and log well-formedness for the qualified-name resolution. -/
theorem pre_erase (ns p : Option String) (ln : String) (ctx : Option String)
    (map : NamespacePfxMap) (lpm : List (String × String)) (ldn : Option String)
    (idx : Nat) (rwf nde : Bool) :
    ErasesToP (serializeElementPreG ns p ln ctx map lpm ldn idx rwf nde)
      (serializeElementPre ns p ln ctx map lpm ldn idx rwf nde) idx := by
  simp only [serializeElementPreG, serializeElementPre]
  by_cases hinh : (ctx == ns) = true
  · rw [if_pos hinh, if_pos hinh]
    simp [ErasesToP, GoodLog.nil]
  · rw [if_neg hinh, if_neg hinh]
    by_cases hxp : (p == some "xmlns" && rwf) = true
    · rw [if_pos hxp, if_pos hxp]
      simp [ErasesToP]
    · rw [if_neg hxp, if_neg hxp]
      cases hcand : (if p == some "xmlns" then p
          else if p != none || ns != ldn then map.get p ns else none) with
      | some cp =>
        dsimp only
        simp [ErasesToP, GoodLog.nil]
      | none =>
        dsimp only
        cases hp : p with
        | some pv =>
          dsimp only
          by_cases hlpm : (assocHas lpm pv) = true
          · rw [if_pos hlpm, if_pos hlpm]
            simp only [generatePfxG, generatePfx]
            cases hsv : serializeAttributeValue ns rwf nde with
            | ok v => simp [hsv, bindOk, ErasesToP, GoodLog.single]
            | error e => simp [hsv, bindError, ErasesToP]
          · rw [if_neg hlpm, if_neg hlpm]
            cases hsv : serializeAttributeValue ns rwf nde with
            | ok v => simp [hsv, bindOk, ErasesToP, GoodLog.nil]
            | error e => simp [hsv, bindError, ErasesToP]
        | none =>
          dsimp only
          by_cases hdf : (ldn == none || ldn != ns) = true
          · rw [if_pos hdf, if_pos hdf]
            cases hsv : serializeAttributeValue ns rwf nde with
            | ok v => simp [hsv, bindOk, ErasesToP, GoodLog.nil]
            | error e => simp [hsv, bindError, ErasesToP]
          · rw [if_neg hdf, if_neg hdf]
            simp [ErasesToP, GoodLog.nil]

end XmlBuilder2

namespace XmlBuilder2

set_option maxHeartbeats 2000000

mutual

/-- Erasure and log well-formedness for one node. -/
theorem node_erase (node : XNode) (ctx : Option String) (m : NamespacePfxMap)
    (i : Nat) (rwf nde : Bool) :
    ErasesTo (serializeNodeNSG node ctx m i rwf nde)
      (serializeNodeNS node ctx m i rwf nde) i := by
  cases node with
  | element ns p ln attrs children =>
    simp only [serializeNodeNSG, serializeNodeNS]
    by_cases hwf : (rwf && (strIncludes ln ":" || ! xml_isName ln)) = true
    · rw [if_pos hwf, if_pos hwf]; simp [ErasesTo]
    · rw [if_neg hwf, if_neg hwf]
      have hpre := pre_erase ns p ln ctx
        (recordNamespaceInformation attrs (m.copy) [] none).1
        (recordNamespaceInformation attrs (m.copy) [] none).2.1
        (recordNamespaceInformation attrs (m.copy) [] none).2.2 i rwf nde
      cases hg : serializeElementPreG ns p ln ctx
          (recordNamespaceInformation attrs (m.copy) [] none).1
          (recordNamespaceInformation attrs (m.copy) [] none).2.1
          (recordNamespaceInformation attrs (m.copy) [] none).2.2 i rwf nde with
      | error e =>
        rw [hg] at hpre
        simp only [ErasesToP] at hpre
        simp [hg, hpre, bindError, ErasesTo]
      | ok pre =>
        rw [hg] at hpre
        simp only [ErasesToP] at hpre
        obtain ⟨hp, hglp⟩ := hpre
        rw [hp]
        simp only [bindOk]
        have har := attrsNS_erase attrs pre.2.2.2.1 pre.2.2.2.2.1
          (recordNamespaceInformation attrs (m.copy) [] none).2.1
          pre.2.2.2.2.2.1 rwf nde
        cases hga : serializeAttributesNSG attrs pre.2.2.2.1 pre.2.2.2.2.1
            (recordNamespaceInformation attrs (m.copy) [] none).2.1
            pre.2.2.2.2.2.1 rwf nde with
        | error e =>
          rw [hga] at har
          simp only [ErasesToL] at har
          simp [hga, har, bindError, ErasesTo]
        | ok ar =>
          rw [hga] at har
          simp only [ErasesToL] at har
          obtain ⟨hpa, hgla⟩ := har
          rw [hpa]
          simp only [bindOk]
          by_cases h1 : ((ns == some infraNamespace.HTML) && children.isEmpty &&
              VoidElementNames.contains ln) = true
          · rw [if_pos h1, if_pos h1]
            simp [ErasesTo, GoodLog.append hglp hgla]
          · rw [if_neg h1, if_neg h1]
            by_cases h2 : (! (ns == some infraNamespace.HTML) && children.isEmpty) = true
            · rw [if_pos h2, if_pos h2]
              simp [ErasesTo, GoodLog.append hglp hgla]
            · rw [if_neg h2, if_neg h2]
              by_cases h3 : ((ns == some infraNamespace.HTML) && ln == "template") = true
              · rw [if_pos h3, if_pos h3]
                simp [bindOk, ErasesTo, GoodLog.append hglp hgla]
              · rw [if_neg h3, if_neg h3]
                have hch := children_erase children pre.2.2.1 ar.2.1 ar.2.2.1 rwf nde
                cases hcr : serializeChildrenNSG children pre.2.2.1 ar.2.1 ar.2.2.1
                    rwf nde with
                | error e =>
                  rw [hcr] at hch
                  simp only [ErasesTo] at hch
                  simp [hcr, hch, bindError, ErasesTo]
                | ok cr =>
                  rw [hcr] at hch
                  simp only [ErasesTo] at hch
                  obtain ⟨hpc, hglc⟩ := hch
                  rw [hpc]
                  simp only [bindOk]
                  exact ⟨rfl, GoodLog.append (GoodLog.append hglp hgla) hglc⟩
  | document children =>
    simp only [serializeNodeNSG, serializeNodeNS]
    by_cases hdoc : (rwf && ! children.any isElementNode) = true
    · rw [if_pos hdoc, if_pos hdoc]; simp [ErasesTo]
    · rw [if_neg hdoc, if_neg hdoc]
      exact children_erase children ctx m i rwf nde
  | docFragment children =>
    simp only [serializeNodeNSG, serializeNodeNS]
    exact children_erase children ctx m i rwf nde
  | text d =>
    simp only [serializeNodeNSG, serializeNodeNS]
    cases hc : serializeText d rwf nde with
    | ok ev => simp [hc, Except.map, ErasesTo, GoodLog.nil]
    | error e => simp [hc, Except.map, ErasesTo]
  | comment d =>
    simp only [serializeNodeNSG, serializeNodeNS]
    cases hc : serializeComment d rwf nde with
    | ok ev => simp [hc, Except.map, ErasesTo, GoodLog.nil]
    | error e => simp [hc, Except.map, ErasesTo]
  | cdata d =>
    simp only [serializeNodeNSG, serializeNodeNS]
    cases hc : serializeCData d rwf nde with
    | ok ev => simp [hc, Except.map, ErasesTo, GoodLog.nil]
    | error e => simp [hc, Except.map, ErasesTo]
  | instruction t d =>
    simp only [serializeNodeNSG, serializeNodeNS]
    cases hc : serializeProcessingInstruction t d rwf nde with
    | ok ev => simp [hc, Except.map, ErasesTo, GoodLog.nil]
    | error e => simp [hc, Except.map, ErasesTo]
  | doctype n pub sys =>
    simp only [serializeNodeNSG, serializeNodeNS]
    cases hc : serializeDocumentType n pub sys rwf nde with
    | ok ev => simp [hc, Except.map, ErasesTo, GoodLog.nil]
    | error e => simp [hc, Except.map, ErasesTo]
  | other t =>
    simp [serializeNodeNSG, serializeNodeNS, ErasesTo]
termination_by (sizeOf node, 1)

/-- Erasure and log well-formedness for a list of children. -/
theorem children_erase (children : List XNode) (ctx : Option String)
    (m : NamespacePfxMap) (i : Nat) (rwf nde : Bool) :
    ErasesTo (serializeChildrenNSG children ctx m i rwf nde)
      (serializeChildrenNS children ctx m i rwf nde) i := by
  cases children with
  | nil => simp [serializeChildrenNSG, serializeChildrenNS, ErasesTo, GoodLog.nil]
  | cons c cs =>
    simp only [serializeChildrenNSG, serializeChildrenNS]
    have h1 := node_erase c ctx m i rwf nde
    cases hg1 : serializeNodeNSG c ctx m i rwf nde with
    | error e =>
      rw [hg1] at h1
      simp only [ErasesTo] at h1
      simp [hg1, h1, bindError, ErasesTo]
    | ok r1 =>
      rw [hg1] at h1
      simp only [ErasesTo] at h1
      obtain ⟨hp1, hgl1⟩ := h1
      rw [hp1]
      simp only [bindOk]
      have h2 := children_erase cs ctx m r1.2.1 rwf nde
      cases hg2 : serializeChildrenNSG cs ctx m r1.2.1 rwf nde with
      | error e =>
        rw [hg2] at h2
        simp only [ErasesTo] at h2
        simp [hg2, h2, bindError, ErasesTo]
      | ok r2 =>
        rw [hg2] at h2
        simp only [ErasesTo] at h2
        obtain ⟨hp2, hgl2⟩ := h2
        rw [hp2]
        simp only [bindOk]
        exact ⟨rfl, GoodLog.append (GoodLog.mono hgl1 le_rfl) hgl2⟩
termination_by (sizeOf children, 0)

end

end XmlBuilder2


namespace XmlBuilder2

/-- Decimal value of a digit-character list (most significant digit first). -/
def digitsVal (l : List Char) : Nat :=
  l.foldl (fun a c => 10 * a + (c.toNat - 48)) 0

theorem toDigitsCore_eq_toDigits_append (n : Nat) :
    ∀ fuel ds, n < fuel →
      Nat.toDigitsCore 10 fuel n ds = Nat.toDigits 10 n ++ ds := by
  induction n using Nat.strong_induction_on with
  | _ n ih =>
    intro fuel ds hfuel
    match fuel, hfuel with
    | f + 1, hfuel =>
      by_cases h0 : n / 10 = 0
      · simp [Nat.toDigitsCore, Nat.toDigits, h0]
      · have hn1 : 1 ≤ n := by
          rcases Nat.eq_zero_or_pos n with h | h
          · subst h; simp at h0
          · exact h
        have hdiv : n / 10 < n := Nat.div_lt_self hn1 (by omega)
        have hf : n / 10 < f := by omega
        have hrec : Nat.toDigitsCore 10 (f + 1) n ds =
            Nat.toDigitsCore 10 f (n / 10) (Nat.digitChar (n % 10) :: ds) := by
          simp [Nat.toDigitsCore, h0]
        have htd : Nat.toDigits 10 n =
            Nat.toDigits 10 (n / 10) ++ [Nat.digitChar (n % 10)] := by
          show Nat.toDigitsCore 10 (n + 1) n [] = _
          have : Nat.toDigitsCore 10 (n + 1) n [] =
              Nat.toDigitsCore 10 n (n / 10) (Nat.digitChar (n % 10) :: []) := by
            simp [Nat.toDigitsCore, h0]
          rw [this, ih (n / 10) hdiv n (Nat.digitChar (n % 10) :: []) hdiv]
        rw [hrec, ih (n / 10) hdiv f (Nat.digitChar (n % 10) :: ds) hf, htd,
          List.append_assoc]
        rfl

theorem toDigits_recurrence (n : Nat) (h : ¬ n / 10 = 0) :
    Nat.toDigits 10 n = Nat.toDigits 10 (n / 10) ++ [Nat.digitChar (n % 10)] := by
  have hn1 : 1 ≤ n := by
    rcases Nat.eq_zero_or_pos n with h1 | h1
    · subst h1; simp at h
    · exact h1
  have hdiv : n / 10 < n := Nat.div_lt_self hn1 (by omega)
  show Nat.toDigitsCore 10 (n + 1) n [] = _
  have : Nat.toDigitsCore 10 (n + 1) n [] =
      Nat.toDigitsCore 10 n (n / 10) (Nat.digitChar (n % 10) :: []) := by
    simp [Nat.toDigitsCore, h]
  rw [this, toDigitsCore_eq_toDigits_append (n / 10) n _ hdiv]

theorem digitChar_toNat (d : Nat) (h : d < 10) : (Nat.digitChar d).toNat = 48 + d := by
  interval_cases d <;> rfl

theorem digitsVal_toDigits (n : Nat) : digitsVal (Nat.toDigits 10 n) = n := by
  induction n using Nat.strong_induction_on with
  | _ n ih =>
    by_cases h0 : n / 10 = 0
    · have hlt : n < 10 := by omega
      have : Nat.toDigits 10 n = [Nat.digitChar (n % 10)] := by
        show Nat.toDigitsCore 10 (n + 1) n [] = _
        simp [Nat.toDigitsCore, h0]
      rw [this]
      simp [digitsVal, digitChar_toNat (n % 10) (Nat.mod_lt n (by omega))]
      omega
    · have hn1 : 1 ≤ n := by
        rcases Nat.eq_zero_or_pos n with h1 | h1
        · subst h1; simp at h0
        · exact h1
      have hdiv : n / 10 < n := Nat.div_lt_self hn1 (by omega)
      rw [toDigits_recurrence n h0]
      have : digitsVal (Nat.toDigits 10 (n / 10) ++ [Nat.digitChar (n % 10)]) =
          10 * digitsVal (Nat.toDigits 10 (n / 10)) +
            ((Nat.digitChar (n % 10)).toNat - 48) := by
        simp [digitsVal, List.foldl_append]
      rw [this, ih (n / 10) hdiv, digitChar_toNat (n % 10) (Nat.mod_lt n (by omega))]
      omega

theorem natRepr_injective : Function.Injective Nat.repr := by
  intro m n h
  have hd : (Nat.repr m).data = (Nat.repr n).data := congrArg String.data h
  have hm : (Nat.repr m).data = Nat.toDigits 10 m := rfl
  have hn : (Nat.repr n).data = Nat.toDigits 10 n := rfl
  have hmn : Nat.toDigits 10 m = Nat.toDigits 10 n := by rw [← hm, ← hn, hd]
  have := congrArg digitsVal hmn
  rwa [digitsVal_toDigits, digitsVal_toDigits] at this

theorem string_data_append (a b : String) : (a ++ b).data = a.data ++ b.data := by
  cases a; cases b; rfl

theorem string_data_inj {a b : String} (h : a.data = b.data) : a = b := by
  cases a; cases b; exact congrArg String.mk (by simpa using h)

theorem nsName_inj {a b : Nat} (h : ("ns" ++ Nat.repr a) = ("ns" ++ Nat.repr b)) :
    a = b := by
  have hd := congrArg String.data h
  rw [string_data_append, string_data_append] at hd
  have := List.append_cancel_left hd
  exact natRepr_injective (string_data_inj this)

/-- Claim C1: within a single namespace-aware serialization run, every
generated prefix is the string ns followed by the prefix-index value it was
generated from, the indices are strictly increasing in generation order
across the entire call (the index is threaded through all recursive calls,
including across unrelated sibling subtrees), all generated prefixes are
pairwise distinct, and in particular no two distinct namespace URIs ever
receive the same generated prefix.  The instrumented serializer is tied to
the plain one by the first conjunct. -/
theorem claim_c1_generated_prefixes (node : XNode) (ctx : Option String)
    (m : NamespacePfxMap) (i : Nat) (rwf nde : Bool) (ev : List Event) (i2 : Nat)
    (log : List GenEntry)
    (h : serializeNodeNSG node ctx m i rwf nde = .ok (ev, i2, log)) :
    serializeNodeNS node ctx m i rwf nde = .ok (ev, i2) ∧
    (∀ e ∈ log, e.1 = "ns" ++ Nat.repr e.2.1 ∧ i ≤ e.2.1 ∧ e.2.1 < i2) ∧
    List.Chain' (fun a b => a.2.1 < b.2.1) log ∧
    List.Pairwise (fun a b => a.1 ≠ b.1) log ∧
    (∀ a ∈ log, ∀ b ∈ log, a.2.2 ≠ b.2.2 → a.1 ≠ b.1) := by
  have he := node_erase node ctx m i rwf nde
  rw [h] at he
  simp only [ErasesTo] at he
  obtain ⟨hplain, hle, hform, hchain⟩ := he
  have hchainIdx : List.Chain' (fun a b : Nat => a < b) (log.map (fun e => e.2.1)) :=
    (List.chain'_map (fun e : GenEntry => e.2.1)).mpr hchain
  have hpwIdx : (log.map (fun e => e.2.1)).Pairwise (fun a b : Nat => a < b) :=
    List.chain'_iff_pairwise.mp hchainIdx
  have hpwIdx2 : log.Pairwise (fun a b => a.2.1 < b.2.1) :=
    (List.pairwise_map).mp hpwIdx
  have hsym : Symmetric (fun a b : GenEntry => a.1 ≠ b.1) :=
    fun x y hxy h2 => hxy h2.symm
  have hpwNe : log.Pairwise (fun a b : GenEntry => a.1 ≠ b.1) := by
    refine List.Pairwise.imp_of_mem ?_ hpwIdx2
    intro a b ha hb hlt
    have hfa := (hform a ha).1
    have hfb := (hform b hb).1
    rw [hfa, hfb]
    intro heq
    have := nsName_inj heq
    omega
  refine ⟨hplain, hform, hchain, hpwNe, ?_⟩
  intro a ha b hb hne
  by_cases hab : a = b
  · exact absurd (congrArg (fun e : GenEntry => e.2.2) hab) hne
  · exact List.Pairwise.forall hsym hpwNe ha hb hab

/-- Witness for C1: a tree whose two attributes lie in two unmapped
namespaces; serialization generates ns1 then ns2, distinct and increasing. -/
theorem claim_c1_generated_prefixes_witness :
    serializeNodeNS (XNode.element none none "root"
        [⟨some "urn:x", none, "a", "1"⟩, ⟨some "urn:y", none, "b", "2"⟩] [])
        none initialPfxMap 1 true false =
      .ok ([Event.beginElement "root", Event.openTagBegin "root",
        Event.attributes [(none, some "xmlns", "ns1", "urn:x"),
          (some "urn:x", some "ns1", "a", "1"),
          (none, some "xmlns", "ns2", "urn:y"),
          (some "urn:y", some "ns2", "b", "2")],
        Event.openTagEnd "root" true false, Event.endElement "root"], 3) ∧
    List.Pairwise (fun a b : GenEntry => a.1 ≠ b.1)
      [("ns1", 1, some "urn:x"), ("ns2", 2, some "urn:y")] := by
  have h := claim_c1_generated_prefixes (XNode.element none none "root"
      [⟨some "urn:x", none, "a", "1"⟩, ⟨some "urn:y", none, "b", "2"⟩] [])
      none initialPfxMap 1 true false
      [Event.beginElement "root", Event.openTagBegin "root",
        Event.attributes [(none, some "xmlns", "ns1", "urn:x"),
          (some "urn:x", some "ns1", "a", "1"),
          (none, some "xmlns", "ns2", "urn:y"),
          (some "urn:y", some "ns2", "b", "2")], Event.openTagEnd "root" true false,
        Event.endElement "root"] 3
      [("ns1", 1, some "urn:x"), ("ns2", 2, some "urn:y")] (by decide)
  exact ⟨h.1, h.2.2.2.1⟩

end XmlBuilder2

namespace XmlBuilder2

theorem entriesOf_setM_ne (s : PfxMapStore) (id nid : Nat) (p : String)
    (u : Option String) (hne : id ≠ nid) :
    (s.setM nid p u).entriesOf id = s.entriesOf id := by
  simp only [PfxMapStore.setM, PfxMapStore.entriesOf, List.getD_eq_getElem?_getD]
  rw [List.getElem?_set_ne (fun h => hne h.symm)]

theorem entriesOf_applyWrites_ne (nid id : Nat) (hne : id ≠ nid) :
    ∀ (ws : List (String × Option String)) (s2 : PfxMapStore),
      (s2.applyWrites nid ws).entriesOf id = s2.entriesOf id
  | [], _ => rfl
  | w :: ws, s2 => by
    show ((s2.setM nid w.1 w.2).applyWrites nid ws).entriesOf id = s2.entriesOf id
    rw [entriesOf_applyWrites_ne nid id hne ws (s2.setM nid w.1 w.2),
      entriesOf_setM_ne s2 id nid w.1 w.2 hne]

/-- Claim C2: prefix-map entries added while serializing an element and its
subtree are never visible to the element's following siblings or ancestors.
In the store model of the mutable NamespacePrefixMap, copy allocates an
independent map seeded with the current entries: the fresh identifier differs
from the source, the copied entries coincide, and any sequence of set
operations through one identifier leaves the map behind the other identifier
unchanged.  In the serializer embedding, each child of an element receives
the very map built for that element, and a node's serialization returns no
map at all, so sibling k+1 is serialized with the same map as sibling k, as
the final conjunct (the unfolding of the child loop) records. -/
theorem claim_c2_prefix_map_isolation (s : PfxMapStore) (id : Nat)
    (h : id < s.maps.length) :
    (s.copyM id).1 ≠ id ∧
    (s.copyM id).2.entriesOf (s.copyM id).1 = s.entriesOf id ∧
    (∀ ws : List (String × Option String),
      ((s.copyM id).2.applyWrites (s.copyM id).1 ws).entriesOf id = s.entriesOf id ∧
      ((s.copyM id).2.applyWrites id ws).entriesOf (s.copyM id).1 = s.entriesOf id) ∧
    (∀ (c : XNode) (cs : List XNode) (ctx : Option String) (m : NamespacePfxMap)
        (i : Nat) (rwf nde : Bool),
      serializeChildrenNS (c :: cs) ctx m i rwf nde = do
        let r1 ← serializeNodeNS c ctx m i rwf nde
        let r2 ← serializeChildrenNS cs ctx m r1.2 rwf nde
        Except.ok (r1.1 ++ r2.1, r2.2)) := by
  have hfresh : (s.copyM id).1 = s.maps.length := rfl
  have hne : (s.copyM id).1 ≠ id := by omega
  have hcopied : (s.copyM id).2.entriesOf (s.copyM id).1 = s.entriesOf id := by
    simp only [PfxMapStore.copyM, PfxMapStore.entriesOf, List.getD_eq_getElem?_getD]
    rw [List.getElem?_concat_length]
    rfl
  have hidold : (s.copyM id).2.entriesOf id = s.entriesOf id := by
    simp only [PfxMapStore.copyM, PfxMapStore.entriesOf, List.getD_eq_getElem?_getD]
    rw [List.getElem?_append_left h]
  refine ⟨hne, hcopied, ?_, ?_⟩
  · intro ws
    constructor
    · rw [entriesOf_applyWrites_ne (s.copyM id).1 id (fun hx => hne hx.symm) ws, hidold]
    · rw [entriesOf_applyWrites_ne id (s.copyM id).1 hne ws, hcopied]
  · intro c cs ctx m i rwf nde
    rfl

/-- Witness for C2: a store with one one-entry map; copying and writing
through the copy leaves the original untouched. -/
theorem claim_c2_prefix_map_isolation_witness :
    ((⟨[[("xml", some infraNamespace.XML)]]⟩ : PfxMapStore).copyM 0).1 ≠ 0 ∧
    (((⟨[[("xml", some infraNamespace.XML)]]⟩ : PfxMapStore).copyM 0).2.applyWrites
        ((⟨[[("xml", some infraNamespace.XML)]]⟩ : PfxMapStore).copyM 0).1
        [("p", some "urn:a")]).entriesOf 0 =
      (⟨[[("xml", some infraNamespace.XML)]]⟩ : PfxMapStore).entriesOf 0 := by
  have h := claim_c2_prefix_map_isolation
    (⟨[[("xml", some infraNamespace.XML)]]⟩ : PfxMapStore) 0 (by decide)
  exact ⟨h.1, (h.2.2.1 [("p", some "urn:a")]).1⟩

end XmlBuilder2

namespace XmlBuilder2

/-- Claim C7: serializing a comment raises the well-formedness error exactly
when requireWellFormed is set and the data contains two adjacent hyphens,
ends with a hyphen, or contains characters outside the legal XML ranges; in
every other case the comment event carries the data unchanged, with no
escaping applied. -/
theorem claim_c7_comment (data : String) (rwf nde : Bool) :
    ((∃ e, serializeComment data rwf nde = .error e) ↔
      (rwf = true ∧ (strIncludes data "--" = true ∨ strEndsWith data "-" = true ∨
        xml_isLegalChar data = false))) ∧
    (¬ (rwf = true ∧ (strIncludes data "--" = true ∨ strEndsWith data "-" = true ∨
        xml_isLegalChar data = false)) →
      serializeComment data rwf nde = .ok [Event.comment data]) := by
  simp only [serializeComment]
  by_cases hc : (rwf && (! xml_isLegalChar data || strIncludes data "--" ||
      strEndsWith data "-")) = true
  · rw [if_pos hc]
    simp only [Bool.and_eq_true, Bool.or_eq_true, Bool.not_eq_true'] at hc
    constructor
    · constructor
      · intro _
        exact ⟨hc.1, by tauto⟩
      · intro _
        exact ⟨_, rfl⟩
    · intro hnc
      exact absurd ⟨hc.1, by tauto⟩ hnc
  · rw [if_neg hc]
    simp only [Bool.and_eq_true, Bool.or_eq_true, Bool.not_eq_true',
      not_and, not_or] at hc
    constructor
    · constructor
      · rintro ⟨e, he⟩
        exact absurd he (by simp)
      · intro hcond
        obtain ⟨h1, h2⟩ := hcond
        have := hc h1
        tauto
    · intro _
      rfl

/-- Witness for C7: a benign comment is emitted unchanged. -/
theorem claim_c7_comment_witness :
    serializeComment "a b" true false = .ok [Event.comment "a b"] := by
  exact (claim_c7_comment "a b" true false).2 (by decide)

/-- Claim C9: for every element outside the HTML namespace with an empty
child list, a successful serialization emits the open-tag-begin events, one
attributes event, then the self-closing open-tag-end event (selfClosing true,
voidElement false) immediately followed by the end-element event — and no
close-tag event. -/
theorem claim_c9_self_closing (ns p : Option String) (ln : String)
    (attrs : List XAttr) (ctx : Option String) (m : NamespacePfxMap) (i : Nat)
    (rwf nde : Bool) (ev : List Event) (i2 : Nat)
    (hns : ns ≠ some infraNamespace.HTML)
    (h : serializeNodeNS (.element ns p ln attrs []) ctx m i rwf nde = .ok (ev, i2)) :
    ∃ q al, ev = [Event.beginElement q, Event.openTagBegin q, Event.attributes al,
      Event.openTagEnd q true false, Event.endElement q] := by
  rw [serializeNodeNS] at h
  by_cases hwf : (rwf && (strIncludes ln ":" || ! xml_isName ln)) = true
  · rw [if_pos hwf] at h
    cases h
  · rw [if_neg hwf] at h
    dsimp only at h
    cases hg : serializeElementPre ns p ln ctx
        (recordNamespaceInformation attrs (m.copy) [] none).1
        (recordNamespaceInformation attrs (m.copy) [] none).2.1
        (recordNamespaceInformation attrs (m.copy) [] none).2.2 i rwf nde with
    | error e => rw [hg] at h; cases h
    | ok pre =>
      rw [hg] at h
      simp only [bindOk] at h
      cases ha : serializeAttributesNS attrs pre.2.2.2.1 pre.2.2.2.2.1
          (recordNamespaceInformation attrs (m.copy) [] none).2.1
          pre.2.2.2.2.2 rwf nde with
      | error e => rw [ha] at h; cases h
      | ok ar =>
        rw [ha] at h
        simp only [bindOk] at h
        have hhtml : (ns == some infraNamespace.HTML) = false := by
          simp [hns]
        rw [if_neg (by simp [hhtml]), if_pos (by simp [hhtml])] at h
        injection h with h1
        injection h1 with hev hidx
        exact ⟨pre.1, pre.2.1 ++ ar.1, hev.symm⟩

/-- Witness for C9: a one-element tree with a namespace and an attribute. -/
theorem claim_c9_self_closing_witness :
    serializeNodeNS (.element (some "urn:a") none "e" [⟨none, none, "k", "v"⟩] [])
        none initialPfxMap 1 true false =
      .ok ([Event.beginElement "e", Event.openTagBegin "e",
        Event.attributes [(none, none, "xmlns", "urn:a"), (none, none, "k", "v")],
        Event.openTagEnd "e" true false, Event.endElement "e"], 1) ∧
    [Event.beginElement "e", Event.openTagBegin "e",
        Event.attributes [(none, none, "xmlns", "urn:a"), (none, none, "k", "v")],
        Event.openTagEnd "e" true false, Event.endElement "e"] =
      [Event.beginElement "e", Event.openTagBegin "e",
        Event.attributes [(none, none, "xmlns", "urn:a"), (none, none, "k", "v")],
        Event.openTagEnd "e" true false, Event.endElement "e"] := by
  have h := claim_c9_self_closing (some "urn:a") none "e" [⟨none, none, "k", "v"⟩]
    none initialPfxMap 1 true false
    [Event.beginElement "e", Event.openTagBegin "e",
      Event.attributes [(none, none, "xmlns", "urn:a"), (none, none, "k", "v")],
      Event.openTagEnd "e" true false, Event.endElement "e"] 1
    (by decide) (by decide)
  exact ⟨by decide, rfl⟩

end XmlBuilder2

namespace XmlBuilder2

/-- Claim C10: createProcessingInstruction throws InvalidCharacterError
exactly when the target does not match the Name production or the data does
NOT contain the substring consisting of a question mark and a greater-than
sign, and returns a new ProcessingInstruction node exactly when the target
matches Name and the data does contain that substring. -/
theorem claim_c10_createProcessingInstruction (target data : String) :
    ((∃ e, createProcessingInstruction target data = .error e) ↔
      (xml_isName target = false ∨ strIncludes data "?>" = false)) ∧
    ((∃ e, createProcessingInstruction target data = .error e) →
      createProcessingInstruction target data = .error DocDOMError.invalidCharacterError) ∧
    (xml_isName target = true → strIncludes data "?>" = true →
      createProcessingInstruction target data = .ok ⟨target, data⟩) := by
  simp only [createProcessingInstruction]
  cases hn : xml_isName target with
  | false =>
    simp
  | true =>
    cases hd : strIncludes data "?>" with
    | false => simp
    | true => simp

/-- Witness for C10: a Name-valid target with data containing the marker is
accepted; the same target with plain data is rejected. -/
theorem claim_c10_createProcessingInstruction_witness :
    createProcessingInstruction "pi" "a?>b" = .ok ⟨"pi", "a?>b"⟩ := by
  exact (claim_c10_createProcessingInstruction "pi" "a?>b").2.2 (by decide) (by decide)

/-- Counterexample for C6 as stated: the unsupported-node failure is not a
signal separate from the uniform invalid-state error — at the entry point it
is surfaced wrapped in exactly that invalid-state error, for both values of
requireWellFormed. -/
theorem claim_c6_counterexample :
    serializeNode (.other 99) true true false =
      .error (DOMErr.invalidState "Unknown node type: 99") ∧
    serializeNode (.other 99) true false false =
      .error (DOMErr.invalidState "Unknown node type: 99") ∧
    serializeNode (.other 99) false true false =
      .error (DOMErr.invalidState "Unknown node type: 99") := by
  refine ⟨by decide, by decide, by decide⟩

/-- Claim C6 (amended): serializing a node of an unsupported kind fails on
both paths and regardless of requireWellFormed, with the distinct
unknown-node message — but, like every well-formedness violation, the
failure is surfaced wrapped in the single uniform invalid-state error; the
message differs from every well-formedness violation message. -/
theorem claim_c6_unsupported_node (t : Nat) (hasNS rwf nde : Bool) :
    serializeNode (.other t) hasNS rwf nde =
      .error (DOMErr.invalidState ("Unknown node type: " ++ Nat.repr t)) ∧
    (∀ m ∈ wellFormednessMessages, ("Unknown node type: " ++ Nat.repr t) ≠ m) := by
  constructor
  · cases hasNS <;>
      simp [serializeNode, serializeNodeNS, serializeNodeFast, toString_eq_repr]
  · intro m hm heq
    have h1 : ("Unknown node type: " ++ Nat.repr t).data.head? = some 'U' := by
      rw [string_data_append]; rfl
    rw [heq] at h1
    fin_cases hm <;> exact absurd h1 (by decide)

/-- Witness for C6 (amended): instantiated at node type 99. -/
theorem claim_c6_unsupported_node_witness :
    serializeNode (.other 99) true true false =
      .error (DOMErr.invalidState ("Unknown node type: " ++ Nat.repr 99)) ∧
    ("Unknown node type: " ++ Nat.repr 99) ≠
      "Element contains duplicate attributes (well-formed required)." := by
  have h := claim_c6_unsupported_node 99 true true false
  exact ⟨h.1, h.2 _ (by decide)⟩

end XmlBuilder2

namespace XmlBuilder2

end XmlBuilder2

namespace XmlBuilder2

/-- An Except bind equals ok exactly when both stages succeed. -/
theorem bindEqOkIff {α β γ : Type} {x : Except γ α} {f : α → Except γ β} {r : β} :
    (x >>= f) = .ok r ↔ ∃ v, x = .ok v ∧ f v = .ok r := by
  cases x with
  | ok v => simp [bindOk]
  | error e => simp [bindError]

/-- Under requireWellFormed, a successful attribute step records the
attribute's (namespace, localName) pair: the pair was not yet in the set and
the returned set is the old set extended with it. -/
theorem attrStep_true_lns (nde ign : Bool) (lpm : List (String × String)) (a : XAttr)
    (lns : LocalNameSet) (map : NamespacePfxMap) (idx : Nat)
    (r : LocalNameSet × NamespacePfxMap × Nat × List AttrEntry)
    (h : serializeAttrStep true nde ign lpm a lns map idx = .ok r) :
    r.1 = lns.set a.namespaceURI a.localName ∧
    lns.has a.namespaceURI a.localName = false := by
  by_cases hdup : (true && lns.has a.namespaceURI a.localName) = true
  · have hstep : serializeAttrStep true nde ign lpm a lns map idx =
        .error "Element contains duplicate attributes (well-formed required)." := by
      simp only [serializeAttrStep]
      rw [if_neg (by simp : ¬ ((!true && !ign && a.namespaceURI == none) = true)),
        if_pos hdup]
    rw [hstep] at h
    exact Except.noConfusion h
  · refine ⟨?_, by simpa using hdup⟩
    simp only [serializeAttrStep] at h
    rw [if_neg (by simp : ¬ ((!true && !ign && a.namespaceURI == none) = true)),
      if_neg hdup] at h
    repeat' (split at h)
    all_goals
      first
      | exact Except.noConfusion h
      | (exfalso; simp_all; done)
      | (injection h with hx; simp [← hx])
      | (obtain ⟨v, hv, h2⟩ := bindEqOkIff.mp h;
         repeat' (split at h2);
         first
         | exact Except.noConfusion h2
         | (exfalso; simp_all; done)
         | (injection h2 with hx2; simp [← hx2])
         | (obtain ⟨v2, hv2, h3⟩ := bindEqOkIff.mp h2;
            first
            | exact Except.noConfusion h3
            | (exfalso; simp_all; done)
            | (injection h3 with hx3; simp [← hx3])))

end XmlBuilder2

namespace XmlBuilder2

/-! ### Claim C4: duplicate attribute handling -/

/-- Number of output attribute entries whose (namespaceURI, localName) pair is k. -/
def countKey (k : Option String × String) (l : List AttrEntry) : Nat :=
  (l.filter (fun e => (e.1, e.2.2.1) == k)).length

/-- Number of attributes whose (namespaceURI, localName) pair is k. -/
def attrsKeyCount (k : Option String × String) (attrs : List XAttr) : Nat :=
  (attrs.filter (fun a => (a.namespaceURI, a.localName) == k)).length

/-- Number of attributes with the given local name. -/
def lnCount (ln : String) (attrs : List XAttr) : Nat :=
  (attrs.filter (fun a => a.localName == ln)).length

theorem countKey_append (k : Option String × String) (l1 l2 : List AttrEntry) :
    countKey k (l1 ++ l2) = countKey k l1 + countKey k l2 := by
  simp [countKey, List.filter_append]

theorem countKey_single_self (ns : Option String) (p : Option String) (ln v : String) :
    countKey (ns, ln) [(ns, p, ln, v)] = 1 := by
  simp [countKey]

/-- With requireWellFormed false, attribute-value serialization never fails. -/
theorem serializeAttributeValue_false_ok (v : String) (nde : Bool) :
    serializeAttributeValue (some v) false nde =
      .ok (if nde then escapeAttrValueNoDouble v else escapeAttrValueDefault v) := by
  simp [serializeAttributeValue]

/-- In well-formed mode, an attribute whose pair is already recorded makes the
step fail with the duplicate-attributes error. -/
theorem attrStep_true_dup (nde ign : Bool) (lpm : List (String × String)) (a : XAttr)
    (lns : LocalNameSet) (map : NamespacePfxMap) (idx : Nat)
    (h : lns.has a.namespaceURI a.localName = true) :
    serializeAttrStep true nde ign lpm a lns map idx =
      .error "Element contains duplicate attributes (well-formed required)." := by
  simp only [serializeAttrStep]
  rw [if_neg (by simp : ¬ ((!true && !ign && a.namespaceURI == none) = true)),
    if_pos (by simp [h] : (true && lns.has a.namespaceURI a.localName) = true)]

theorem lns_set_has_self (lns : LocalNameSet) (ns : Option String) (ln : String) :
    (lns.set ns ln).has ns ln = true := by
  simp [LocalNameSet.set, LocalNameSet.has]

theorem lns_set_has_mono (lns : LocalNameSet) (ns ns2 : Option String) (ln ln2 : String)
    (h : lns.has ns2 ln2 = true) : (lns.set ns ln).has ns2 ln2 = true := by
  simp [LocalNameSet.set, LocalNameSet.has, List.contains_cons] at h ⊢
  exact Or.inr h

/-- In well-formed mode, once a pair is recorded in the local name set, any later
attribute carrying the same pair makes the loop fail. -/
theorem c4_loop_true_mem_error (nde ign : Bool) (lpm : List (String × String))
    (b : XAttr) :
    ∀ (attrs : List XAttr) (lns : LocalNameSet) (map : NamespacePfxMap) (idx : Nat)
      (acc : List AttrEntry), b ∈ attrs → lns.has b.namespaceURI b.localName = true →
      ∃ e, serializeAttributesNSLoop true nde ign lpm attrs lns map idx acc = .error e := by
  intro attrs
  induction attrs with
  | nil => intro _ _ _ _ hb _; exact absurd hb (List.not_mem_nil b)
  | cons a rest ih =>
    intro lns map idx acc hb hhas
    rcases List.mem_cons.mp hb with hba | hbr
    · refine ⟨"Element contains duplicate attributes (well-formed required).", ?_⟩
      simp only [serializeAttributesNSLoop]
      rw [← hba] at *
      rw [attrStep_true_dup nde ign lpm b lns map idx hhas]
      rfl
    · cases hstep : serializeAttrStep true nde ign lpm a lns map idx with
      | error e =>
        exact ⟨e, by simp only [serializeAttributesNSLoop]; rw [hstep]; rfl⟩
      | ok r =>
        obtain ⟨hr1, _⟩ := attrStep_true_lns nde ign lpm a lns map idx r hstep
        have hhas2 : r.1.has b.namespaceURI b.localName = true := by
          rw [hr1]; exact lns_set_has_mono lns _ _ _ _ hhas
        obtain ⟨e, he⟩ := ih r.1 r.2.1 r.2.2.1 (acc ++ r.2.2.2) hbr hhas2
        exact ⟨e, by simp only [serializeAttributesNSLoop]; rw [hstep, bindOk]; exact he⟩

/-- In well-formed mode, an attribute list carrying two attributes with the same
(namespaceURI, localName) pair makes the loop fail. -/
theorem c4_loop_true_dup_error (nde ign : Bool) (lpm : List (String × String))
    (a b : XAttr) (hns : a.namespaceURI = b.namespaceURI)
    (hln : a.localName = b.localName) :
    ∀ (pre mid post : List XAttr) (lns : LocalNameSet) (map : NamespacePfxMap)
      (idx : Nat) (acc : List AttrEntry),
      ∃ e, serializeAttributesNSLoop true nde ign lpm
        (pre ++ a :: mid ++ b :: post) lns map idx acc = .error e := by
  intro pre
  induction pre with
  | nil =>
    intro mid post lns map idx acc
    cases hstep : serializeAttrStep true nde ign lpm a lns map idx with
    | error e =>
      refine ⟨e, ?_⟩
      simp only [List.nil_append, serializeAttributesNSLoop]
      rw [hstep]
      rfl
    | ok r =>
      obtain ⟨hr1, _⟩ := attrStep_true_lns nde ign lpm a lns map idx r hstep
      have hhas : r.1.has b.namespaceURI b.localName = true := by
        rw [hr1, ← hns, ← hln]; exact lns_set_has_self lns _ _
      obtain ⟨e, he⟩ := c4_loop_true_mem_error nde ign lpm b (mid ++ b :: post)
        r.1 r.2.1 r.2.2.1 (acc ++ r.2.2.2) (by simp) hhas
      refine ⟨e, ?_⟩
      simp only [List.nil_append, serializeAttributesNSLoop]
      rw [hstep, bindOk]
      exact he
  | cons p pre2 ih =>
    intro mid post lns map idx acc
    cases hstep : serializeAttrStep true nde ign lpm p lns map idx with
    | error e =>
      refine ⟨e, ?_⟩
      simp only [List.cons_append, serializeAttributesNSLoop]
      rw [hstep]
      rfl
    | ok r =>
      obtain ⟨e, he⟩ := ih mid post r.1 r.2.1 r.2.2.1 (acc ++ r.2.2.2)
      refine ⟨e, ?_⟩
      simp only [List.cons_append, serializeAttributesNSLoop]
      rw [hstep, bindOk]
      exact he

end XmlBuilder2

namespace XmlBuilder2

theorem one_le_countKey_append_self (ns p : Option String) (ln v : String)
    (l : List AttrEntry) : 1 ≤ countKey (ns, ln) (l ++ [(ns, p, ln, v)]) := by
  rw [countKey_append, countKey_single_self]
  omega

set_option maxHeartbeats 4000000 in
/-- With requireWellFormed false the attribute step never fails, and every
attribute that is not a namespace-declaration attribute contributes at least one
output entry carrying its own (namespaceURI, localName) pair. -/
theorem attrStep_false_ok (nde ign : Bool) (lpm : List (String × String)) (a : XAttr)
    (lns : LocalNameSet) (map : NamespacePfxMap) (idx : Nat) :
    ∃ r, serializeAttrStep false nde ign lpm a lns map idx = .ok r ∧
      (a.namespaceURI ≠ some infraNamespace.XMLNS →
        1 ≤ countKey (a.namespaceURI, a.localName) r.2.2.2) := by
  cases hres : serializeAttrStep false nde ign lpm a lns map idx with
  | error e =>
    exfalso
    simp only [serializeAttrStep] at hres
    all_goals
      (repeat' (first
        | (rw [serializeAttributeValue_false_ok, bindOk] at hres)
        | (split at hres)))
    all_goals
      first
      | exact Except.noConfusion hres
      | simp_all
  | ok r =>
    refine ⟨r, rfl, ?_⟩
    simp only [serializeAttrStep] at hres
    all_goals
      (repeat' (first
        | (rw [serializeAttributeValue_false_ok, bindOk] at hres)
        | (split at hres)))
    all_goals
      first
      | exact Except.noConfusion hres
      | (exfalso; simp_all; done)
      | (intro hx; exfalso; simp_all; done)
      | (injection hres with hr; subst hr; intro hx
         first
         | (exfalso; simp_all; done)
         | exact one_le_countKey_append_self _ _ _ _ _
         | (simp_all [countKey, List.filter_append]; done)
         | (simp_all [countKey, List.filter_append]; omega))

end XmlBuilder2

namespace XmlBuilder2

/-- With requireWellFormed false the namespace-aware attribute loop never fails,
and the output contains at least one entry per processed attribute whose
(namespaceURI, localName) pair is k, for any non-declaration pair k. -/
theorem c4_loop_false_ok (nde ign : Bool) (lpm : List (String × String))
    (k : Option String × String) (hk : k.1 ≠ some infraNamespace.XMLNS) :
    ∀ (attrs : List XAttr) (lns : LocalNameSet) (map : NamespacePfxMap) (idx : Nat)
      (acc : List AttrEntry),
      ∃ out mp2 i2, serializeAttributesNSLoop false nde ign lpm attrs lns map idx acc =
          .ok (out, mp2, i2) ∧
        countKey k acc + attrsKeyCount k attrs ≤ countKey k out := by
  intro attrs
  induction attrs with
  | nil =>
    intro lns map idx acc
    exact ⟨acc, map, idx, rfl, by simp [attrsKeyCount]⟩
  | cons a rest ih =>
    intro lns map idx acc
    obtain ⟨r, hr, hcnt⟩ := attrStep_false_ok nde ign lpm a lns map idx
    obtain ⟨out, mp2, i2, hloop, hle⟩ := ih r.1 r.2.1 r.2.2.1 (acc ++ r.2.2.2)
    refine ⟨out, mp2, i2, ?_, ?_⟩
    · simp only [serializeAttributesNSLoop]
      rw [hr, bindOk]
      exact hloop
    · have hacc := countKey_append k acc r.2.2.2
      by_cases hak : ((a.namespaceURI, a.localName) == k) = true
      · have hkeq : (a.namespaceURI, a.localName) = k := by simpa using hak
        have h1 : 1 ≤ countKey k r.2.2.2 := by
          rw [← hkeq]
          refine hcnt ?_
          have hfst : a.namespaceURI = k.1 := congrArg Prod.fst hkeq
          rw [hfst]
          exact hk
        have h2 : attrsKeyCount k (a :: rest) = 1 + attrsKeyCount k rest := by
          simp [attrsKeyCount, List.filter_cons, hak, Nat.add_comm]
        omega
      · have h2 : attrsKeyCount k (a :: rest) = attrsKeyCount k rest := by
          simp [attrsKeyCount, List.filter_cons, hak]
        omega

end XmlBuilder2

namespace XmlBuilder2

/-- In well-formed mode, once a local name is recorded, any later attribute with
the same local name makes the fast loop fail. -/
theorem fastLoop_true_mem_error (nde : Bool) (b : XAttr) :
    ∀ (attrs : List XAttr) (lnsF : List String) (acc : List AttrEntry),
      b ∈ attrs → lnsF.contains b.localName = true →
      ∃ e, serializeAttributesLoop true nde attrs lnsF acc = .error e := by
  intro attrs
  induction attrs with
  | nil => intro _ _ hb _; exact absurd hb (List.not_mem_nil b)
  | cons a rest ih =>
    intro lnsF acc hb hhas
    simp only [serializeAttributesLoop]
    rw [if_neg (by simp : ¬ ((!true) = true))]
    by_cases hc : lnsF.contains a.localName = true
    · exact ⟨_, by rw [if_pos hc]⟩
    · have hbr : b ∈ rest := by
        rcases List.mem_cons.mp hb with hba | hbr
        · exact absurd (hba ▸ hhas) hc
        · exact hbr
      rw [if_neg hc]
      by_cases hinv : (strIncludes a.localName ":" || ! xml_isName a.localName) = true
      · exact ⟨_, by rw [if_pos hinv]⟩
      · rw [if_neg hinv]
        cases hsv : serializeAttributeValue (some a.value) true nde with
        | error e => exact ⟨e, rfl⟩
        | ok v =>
          obtain ⟨e, he⟩ := ih (a.localName :: lnsF)
            (acc ++ [(none, none, a.localName, v)]) hbr
            (by simp only [List.contains_cons, Bool.or_eq_true, beq_iff_eq]; exact Or.inr hhas)
          exact ⟨e, by rw [bindOk]; exact he⟩

/-- In well-formed mode, an attribute list carrying two attributes with the same
local name makes the fast loop fail. -/
theorem fastLoop_true_dup_error (nde : Bool) (a b : XAttr)
    (hln : a.localName = b.localName) :
    ∀ (pre mid post : List XAttr) (lnsF : List String) (acc : List AttrEntry),
      ∃ e, serializeAttributesLoop true nde (pre ++ a :: mid ++ b :: post) lnsF acc =
        .error e := by
  intro pre
  induction pre with
  | nil =>
    intro mid post lnsF acc
    simp only [List.nil_append, serializeAttributesLoop]
    rw [if_neg (by simp : ¬ ((!true) = true))]
    by_cases hc : lnsF.contains a.localName = true
    · exact ⟨_, by rw [if_pos hc]⟩
    · rw [if_neg hc]
      by_cases hinv : (strIncludes a.localName ":" || ! xml_isName a.localName) = true
      · exact ⟨_, by rw [if_pos hinv]⟩
      · rw [if_neg hinv]
        cases hsv : serializeAttributeValue (some a.value) true nde with
        | error e => exact ⟨e, rfl⟩
        | ok v =>
          obtain ⟨e, he⟩ := fastLoop_true_mem_error nde b (mid ++ b :: post)
            (a.localName :: lnsF) (acc ++ [(none, none, a.localName, v)])
            (by simp)
            (by simp only [List.contains_cons, Bool.or_eq_true, beq_iff_eq]; exact Or.inl hln.symm)
          exact ⟨e, by rw [bindOk]; exact he⟩
  | cons p pre2 ih =>
    intro mid post lnsF acc
    simp only [List.cons_append, serializeAttributesLoop]
    rw [if_neg (by simp : ¬ ((!true) = true))]
    by_cases hc : lnsF.contains p.localName = true
    · exact ⟨_, by rw [if_pos hc]⟩
    · rw [if_neg hc]
      by_cases hinv : (strIncludes p.localName ":" || ! xml_isName p.localName) = true
      · exact ⟨_, by rw [if_pos hinv]⟩
      · rw [if_neg hinv]
        cases hsv : serializeAttributeValue (some p.value) true nde with
        | error e => exact ⟨e, rfl⟩
        | ok v =>
          obtain ⟨e, he⟩ := ih mid post (p.localName :: lnsF)
            (acc ++ [(none, none, p.localName, v)])
          exact ⟨e, by rw [bindOk]; exact he⟩

/-- With requireWellFormed false the fast loop never fails and emits one entry
per attribute, so the output carries at least one (none, localName) entry per
attribute with that local name. -/
theorem fastLoop_false_ok (nde : Bool) (ln : String) :
    ∀ (attrs : List XAttr) (lnsF : List String) (acc : List AttrEntry),
      ∃ out, serializeAttributesLoop false nde attrs lnsF acc = .ok out ∧
        countKey (none, ln) acc + lnCount ln attrs ≤ countKey (none, ln) out := by
  intro attrs
  induction attrs with
  | nil => intro lnsF acc; exact ⟨acc, rfl, by simp [lnCount]⟩
  | cons a rest ih =>
    intro lnsF acc
    obtain ⟨out, hloop, hle⟩ := ih lnsF (acc ++ [(none, none, a.localName,
      if nde then escapeAttrValueNoDouble a.value else escapeAttrValueDefault a.value)])
    refine ⟨out, ?_, ?_⟩
    · simp only [serializeAttributesLoop]
      rw [if_pos (by simp : (!false) = true), serializeAttributeValue_false_ok, bindOk]
      exact hloop
    · have hacc := countKey_append (none, ln) acc [(none, none, a.localName,
        if nde then escapeAttrValueNoDouble a.value else escapeAttrValueDefault a.value)]
      by_cases hal : (a.localName == ln) = true
      · have haln : a.localName = ln := by simpa using hal
        have h1 : countKey (none, ln) [((none : Option String), (none : Option String),
            a.localName, if nde then escapeAttrValueNoDouble a.value
              else escapeAttrValueDefault a.value)] = 1 := by
          rw [haln]
          exact countKey_single_self none none ln _
        have h2 : lnCount ln (a :: rest) = 1 + lnCount ln rest := by
          simp [lnCount, List.filter_cons, hal, Nat.add_comm]
        omega
      · have h1 : countKey (none, ln) [((none : Option String), (none : Option String),
            a.localName, if nde then escapeAttrValueNoDouble a.value
              else escapeAttrValueDefault a.value)] = 0 := by
          simp [countKey]
          intro hcontra
          exact absurd (by simp [hcontra]) hal
        have h2 : lnCount ln (a :: rest) = lnCount ln rest := by
          simp [lnCount, List.filter_cons, hal]
        omega

end XmlBuilder2

namespace XmlBuilder2

/-- Claim C4 (amended): for an attribute list containing two attributes with the
same (namespaceURI, localName) pair, attribute serialization on either path
fails when requireWellFormed is true; when requireWellFormed is false the
namespace-aware path never fails and emits both attributes provided they are
not namespace-declaration attributes (namespaceURI not the XMLNS namespace;
declaration attributes can be skipped, see the counterexample), and the
namespace-unaware path never fails and emits both unconditionally. -/
theorem claim_c4_duplicate_attributes
    (pre mid post : List XAttr) (a b : XAttr)
    (hns : a.namespaceURI = b.namespaceURI) (hln : a.localName = b.localName)
    (map : NamespacePfxMap) (idx : Nat) (lpm : List (String × String))
    (ign nde : Bool) :
    (∃ e, serializeAttributesNS (pre ++ a :: mid ++ b :: post) map idx lpm ign
        true nde = .error e) ∧
    (a.namespaceURI ≠ some infraNamespace.XMLNS →
      ∃ out mp2 i2,
        serializeAttributesNS (pre ++ a :: mid ++ b :: post) map idx lpm ign
          false nde = .ok (out, mp2, i2) ∧
        2 ≤ countKey (a.namespaceURI, a.localName) out) ∧
    (∃ e, serializeAttributes (pre ++ a :: mid ++ b :: post) true nde = .error e) ∧
    (∃ out, serializeAttributes (pre ++ a :: mid ++ b :: post) false nde = .ok out ∧
      2 ≤ countKey (none, a.localName) out) := by
  have hb2 : ((b.namespaceURI, b.localName) == (a.namespaceURI, a.localName)) = true := by
    rw [hns, hln]; simp
  have hbln : (b.localName == a.localName) = true := by rw [hln]; simp
  refine ⟨?_, ?_, ?_, ?_⟩
  · exact c4_loop_true_dup_error nde ign lpm a b hns hln pre mid post ⟨[]⟩ map idx []
  · intro hx
    obtain ⟨out, mp2, i2, hloop, hle⟩ := c4_loop_false_ok nde ign lpm
      (a.namespaceURI, a.localName) hx (pre ++ a :: mid ++ b :: post) ⟨[]⟩ map idx []
    refine ⟨out, mp2, i2, hloop, ?_⟩
    have h0 : countKey (a.namespaceURI, a.localName) [] = 0 := rfl
    have hcnt2 : 2 ≤ attrsKeyCount (a.namespaceURI, a.localName)
        (pre ++ a :: mid ++ b :: post) := by
      simp only [attrsKeyCount, List.filter_append, List.filter_cons, hb2,
        beq_self_eq_true, if_true, List.length_append, List.length_cons]
      omega
    omega
  · exact fastLoop_true_dup_error nde a b hln pre mid post [] []
  · obtain ⟨out, hloop, hle⟩ := fastLoop_false_ok nde a.localName
      (pre ++ a :: mid ++ b :: post) [] []
    refine ⟨out, hloop, ?_⟩
    have h0 : countKey ((none : Option String), a.localName) [] = 0 := rfl
    have hcnt3 : 2 ≤ lnCount a.localName (pre ++ a :: mid ++ b :: post) := by
      simp only [lnCount, List.filter_append, List.filter_cons, hbln,
        beq_self_eq_true, if_true, List.length_append, List.length_cons]
      omega
    omega

/-- Claim C4 counterexample: with requireWellFormed false, an element carrying
the same default-namespace declaration attribute twice (two attributes with the
identical pair (XMLNS namespace, "xmlns")) serializes without error, yet the
attributes event is empty: both duplicates were dropped under the
ignore-namespace-definition-attribute flag instead of both being emitted. -/
theorem claim_c4_counterexample :
    serializeNode
      (XNode.element none none "root"
        [⟨some "http://www.w3.org/2000/xmlns/", none, "xmlns", "urn:a"⟩,
         ⟨some "http://www.w3.org/2000/xmlns/", none, "xmlns", "urn:a"⟩] [])
      true false false =
    .ok [Event.beginElement "root", Event.openTagBegin "root", Event.attributes [],
      Event.openTagEnd "root" true false, Event.endElement "root"] := by
  decide

/-- The amended duplicate-attribute theorem applied to a concrete pair of
attributes sharing the pair (none, "id"). -/
theorem claim_c4_duplicate_attributes_witness :
    (∃ e, serializeAttributesNS
        [⟨none, none, "id", "x"⟩, ⟨none, none, "id", "y"⟩] ⟨[]⟩ 1 [] false
        true false = .error e) ∧
    ((none : Option String) ≠ some infraNamespace.XMLNS →
      ∃ out mp2 i2,
        serializeAttributesNS
          [⟨none, none, "id", "x"⟩, ⟨none, none, "id", "y"⟩] ⟨[]⟩ 1 [] false
          false false = .ok (out, mp2, i2) ∧
        2 ≤ countKey (none, "id") out) ∧
    (∃ e, serializeAttributes
        [⟨none, none, "id", "x"⟩, ⟨none, none, "id", "y"⟩] true false = .error e) ∧
    (∃ out, serializeAttributes
        [⟨none, none, "id", "x"⟩, ⟨none, none, "id", "y"⟩] false false = .ok out ∧
      2 ≤ countKey (none, "id") out) :=
  claim_c4_duplicate_attributes [] [] [] ⟨none, none, "id", "x"⟩ ⟨none, none, "id", "y"⟩
    rfl rfl ⟨[]⟩ 1 [] false false

end XmlBuilder2

namespace XmlBuilder2

set_option maxHeartbeats 1000000

/-- An element of namespace X that re-declares xmlns equal to X, serialized under
context namespace X: the declaration attribute is dropped under the
ignore-namespace-definition-attribute flag, so no declaration at all is emitted. -/
theorem c5_same_decl_ctx (X ln : String) (hX1 : X ≠ infraNamespace.XML)
    (hX5 : X ≠ infraNamespace.HTML)
    (hln1 : strIncludes ln ":" = false) (hln2 : xml_isName ln = true)
    (m : NamespacePfxMap) (i : Nat) (rwf nde : Bool) :
    serializeNodeNS (XNode.element (some X) none ln
      [⟨some infraNamespace.XMLNS, none, "xmlns", X⟩] []) (some X) m i rwf nde =
      .ok ([Event.beginElement ln, Event.openTagBegin ln, Event.attributes [],
        Event.openTagEnd ln true false, Event.endElement ln], i) := by
  simp [serializeNodeNS, recordNamespaceInformation, serializeElementPre,
    serializeAttributesNS, serializeAttributesNSLoop, serializeAttrStep,
    LocalNameSet.has, NamespacePfxMap.copy, bindOk, hln1, hln2, hX1, hX5]

/-- An element of namespace X that declares xmlns equal to X, serialized under a
context namespace other than X: the literal declaration attribute is emitted
exactly once (the pre phase pushes no second copy). -/
theorem c5_same_decl_fresh (X ln : String) (hX1 : X ≠ infraNamespace.XML)
    (hX2 : X ≠ infraNamespace.XMLNS) (hX3 : X ≠ "") (hX5 : X ≠ infraNamespace.HTML)
    (hX4 : xml_isLegalChar X = true)
    (hln1 : strIncludes ln ":" = false) (hln2 : xml_isName ln = true)
    (ctx : Option String) (hctx : ctx ≠ some X)
    (m : NamespacePfxMap) (i : Nat) (rwf nde : Bool) :
    serializeNodeNS (XNode.element (some X) none ln
      [⟨some infraNamespace.XMLNS, none, "xmlns", X⟩] []) ctx m i rwf nde =
      .ok ([Event.beginElement ln, Event.openTagBegin ln,
        Event.attributes [(some infraNamespace.XMLNS,
          m.get none (some infraNamespace.XMLNS), "xmlns",
          if nde then escapeAttrValueNoDouble X else escapeAttrValueDefault X)],
        Event.openTagEnd ln true false, Event.endElement ln], i) := by
  have hxn1 : strIncludes "xmlns" ":" = false := by decide
  have hxn2 : xml_isName "xmlns" = true := by decide
  simp [serializeNodeNS, recordNamespaceInformation, serializeElementPre,
    serializeAttributesNS, serializeAttributesNSLoop, serializeAttrStep,
    serializeAttributeValue, LocalNameSet.has, NamespacePfxMap.copy, bindOk,
    hln1, hln2, hX1, hX2, hX3, hX4, hX5, hctx, hxn1, hxn2]

/-- A descendant of namespace X with no attributes serialized under context
namespace X: no declaration is emitted. -/
theorem c5_inherit (X ln : String) (hX1 : X ≠ infraNamespace.XML)
    (hX5 : X ≠ infraNamespace.HTML)
    (hln1 : strIncludes ln ":" = false) (hln2 : xml_isName ln = true)
    (m : NamespacePfxMap) (i : Nat) (rwf nde : Bool) :
    serializeNodeNS (XNode.element (some X) none ln [] []) (some X) m i rwf nde =
      .ok ([Event.beginElement ln, Event.openTagBegin ln, Event.attributes [],
        Event.openTagEnd ln true false, Event.endElement ln], i) := by
  simp [serializeNodeNS, recordNamespaceInformation, serializeElementPre,
    serializeAttributesNS, serializeAttributesNSLoop,
    NamespacePfxMap.copy, bindOk, hln1, hln2, hX1, hX5]

/-- A child of a different namespace Y under a foreign context, when the prefix
map carries an ancestor-declared prefix for Y: the prefix is reused and no
declaration is emitted. -/
theorem c5_child_reuse (Y ln cp : String) (hY5 : Y ≠ infraNamespace.HTML)
    (hln1 : strIncludes ln ":" = false) (hln2 : xml_isName ln = true)
    (ctx : Option String) (hctx : ctx ≠ some Y)
    (m : NamespacePfxMap) (i : Nat) (rwf nde : Bool)
    (hget : m.get none (some Y) = some cp) :
    serializeNodeNS (XNode.element (some Y) none ln [] []) ctx m i rwf nde =
      .ok ([Event.beginElement (cp ++ ":" ++ ln),
        Event.openTagBegin (cp ++ ":" ++ ln), Event.attributes [],
        Event.openTagEnd (cp ++ ":" ++ ln) true false,
        Event.endElement (cp ++ ":" ++ ln)], i) := by
  simp [serializeNodeNS, recordNamespaceInformation, serializeElementPre,
    serializeAttributesNS, serializeAttributesNSLoop,
    NamespacePfxMap.copy, bindOk, hln1, hln2, hY5, hctx, hget]

/-- A child of a different namespace Y under a foreign context, when the prefix
map carries no prefix for Y: a default declaration xmlns=Y is emitted. -/
theorem c5_child_declare (Y ln : String) (hY5 : Y ≠ infraNamespace.HTML)
    (hY4 : xml_isLegalChar Y = true)
    (hln1 : strIncludes ln ":" = false) (hln2 : xml_isName ln = true)
    (ctx : Option String) (hctx : ctx ≠ some Y)
    (m : NamespacePfxMap) (i : Nat) (rwf nde : Bool)
    (hget : m.get none (some Y) = none) :
    serializeNodeNS (XNode.element (some Y) none ln [] []) ctx m i rwf nde =
      .ok ([Event.beginElement ln, Event.openTagBegin ln,
        Event.attributes [(none, none, "xmlns",
          if nde then escapeAttrValueNoDouble Y else escapeAttrValueDefault Y)],
        Event.openTagEnd ln true false, Event.endElement ln], i) := by
  simp [serializeNodeNS, recordNamespaceInformation, serializeElementPre,
    serializeAttributesNS, serializeAttributesNSLoop, serializeAttributeValue,
    NamespacePfxMap.copy, bindOk, hln1, hln2, hY4, hY5, hctx, hget]

end XmlBuilder2

namespace XmlBuilder2

/-- Claim C5 (amended): for a legal, non-reserved namespace X and legal local
name ln: an element of namespace X literally declaring xmlns=X emits that
declaration exactly once when serialized under a context namespace other than
X, but emits NO declaration when the context is already X (the literal
declaration attribute is dropped there, so the original unconditional "exactly
one" fails, see the counterexample); a descendant of namespace X without
attributes under context X emits no declaration; a child of namespace X under a
foreign context reuses an ancestor-declared prefix when the map carries one and
otherwise emits its own default declaration. -/
theorem claim_c5_default_namespace
    (X ln : String) (hX1 : X ≠ infraNamespace.XML) (hX2 : X ≠ infraNamespace.XMLNS)
    (hX3 : X ≠ "") (hX5 : X ≠ infraNamespace.HTML) (hX4 : xml_isLegalChar X = true)
    (hln1 : strIncludes ln ":" = false) (hln2 : xml_isName ln = true)
    (ctx : Option String) (m : NamespacePfxMap) (i : Nat) (rwf nde : Bool) :
    (ctx = some X →
      serializeNodeNS (XNode.element (some X) none ln
        [⟨some infraNamespace.XMLNS, none, "xmlns", X⟩] []) ctx m i rwf nde =
        .ok ([Event.beginElement ln, Event.openTagBegin ln, Event.attributes [],
          Event.openTagEnd ln true false, Event.endElement ln], i)) ∧
    (ctx ≠ some X →
      serializeNodeNS (XNode.element (some X) none ln
        [⟨some infraNamespace.XMLNS, none, "xmlns", X⟩] []) ctx m i rwf nde =
        .ok ([Event.beginElement ln, Event.openTagBegin ln,
          Event.attributes [(some infraNamespace.XMLNS,
            m.get none (some infraNamespace.XMLNS), "xmlns",
            if nde then escapeAttrValueNoDouble X else escapeAttrValueDefault X)],
          Event.openTagEnd ln true false, Event.endElement ln], i)) ∧
    (ctx = some X →
      serializeNodeNS (XNode.element (some X) none ln [] []) ctx m i rwf nde =
        .ok ([Event.beginElement ln, Event.openTagBegin ln, Event.attributes [],
          Event.openTagEnd ln true false, Event.endElement ln], i)) ∧
    (ctx ≠ some X → ∀ cp, m.get none (some X) = some cp →
      serializeNodeNS (XNode.element (some X) none ln [] []) ctx m i rwf nde =
        .ok ([Event.beginElement (cp ++ ":" ++ ln),
          Event.openTagBegin (cp ++ ":" ++ ln), Event.attributes [],
          Event.openTagEnd (cp ++ ":" ++ ln) true false,
          Event.endElement (cp ++ ":" ++ ln)], i)) ∧
    (ctx ≠ some X → m.get none (some X) = none →
      serializeNodeNS (XNode.element (some X) none ln [] []) ctx m i rwf nde =
        .ok ([Event.beginElement ln, Event.openTagBegin ln,
          Event.attributes [(none, none, "xmlns",
            if nde then escapeAttrValueNoDouble X else escapeAttrValueDefault X)],
          Event.openTagEnd ln true false, Event.endElement ln], i)) := by
  refine ⟨?_, ?_, ?_, ?_, ?_⟩
  · intro hc
    subst hc
    exact c5_same_decl_ctx X ln hX1 hX5 hln1 hln2 m i rwf nde
  · intro hc
    exact c5_same_decl_fresh X ln hX1 hX2 hX3 hX5 hX4 hln1 hln2 ctx hc m i rwf nde
  · intro hc
    subst hc
    exact c5_inherit X ln hX1 hX5 hln1 hln2 m i rwf nde
  · intro hc cp hget
    exact c5_child_reuse X ln cp hX5 hln1 hln2 ctx hc m i rwf nde hget
  · intro hc hget
    exact c5_child_declare X ln hX5 hX4 hln1 hln2 ctx hc m i rwf nde hget

/-- Claim C5 counterexample: a child of namespace urn:a that literally declares
xmlns=urn:a, nested below a parent that already established urn:a as the
context namespace, serializes with an empty attributes event: zero xmlns
declarations on itself rather than exactly one. -/
theorem claim_c5_counterexample :
    serializeNode (XNode.element (some "urn:a") none "p"
      [⟨some "http://www.w3.org/2000/xmlns/", none, "xmlns", "urn:a"⟩]
      [XNode.element (some "urn:a") none "c"
        [⟨some "http://www.w3.org/2000/xmlns/", none, "xmlns", "urn:a"⟩] []])
      true true false =
    .ok [Event.beginElement "p", Event.openTagBegin "p",
      Event.attributes [(some "http://www.w3.org/2000/xmlns/", none, "xmlns", "urn:a")],
      Event.openTagEnd "p" false false,
      Event.beginElement "c", Event.openTagBegin "c", Event.attributes [],
      Event.openTagEnd "c" true false, Event.endElement "c",
      Event.closeTag "p", Event.endElement "p"] := by
  decide

/-- The amended default-namespace theorem applied at X = urn:a, ln = c, under
context urn:b, with the empty prefix map. -/
theorem claim_c5_default_namespace_witness :
    ((some "urn:b" : Option String) = some "urn:a" →
      serializeNodeNS (XNode.element (some "urn:a") none "c"
        [⟨some infraNamespace.XMLNS, none, "xmlns", "urn:a"⟩] [])
        (some "urn:b") ⟨[]⟩ 1 true false =
        .ok ([Event.beginElement "c", Event.openTagBegin "c", Event.attributes [],
          Event.openTagEnd "c" true false, Event.endElement "c"], 1)) ∧
    ((some "urn:b" : Option String) ≠ some "urn:a" →
      serializeNodeNS (XNode.element (some "urn:a") none "c"
        [⟨some infraNamespace.XMLNS, none, "xmlns", "urn:a"⟩] [])
        (some "urn:b") ⟨[]⟩ 1 true false =
        .ok ([Event.beginElement "c", Event.openTagBegin "c",
          Event.attributes [(some infraNamespace.XMLNS, none, "xmlns",
            escapeAttrValueDefault "urn:a")],
          Event.openTagEnd "c" true false, Event.endElement "c"], 1)) ∧
    ((some "urn:b" : Option String) = some "urn:a" →
      serializeNodeNS (XNode.element (some "urn:a") none "c" [] [])
        (some "urn:b") ⟨[]⟩ 1 true false =
        .ok ([Event.beginElement "c", Event.openTagBegin "c", Event.attributes [],
          Event.openTagEnd "c" true false, Event.endElement "c"], 1)) ∧
    ((some "urn:b" : Option String) ≠ some "urn:a" → ∀ cp,
      NamespacePfxMap.get ⟨[]⟩ none (some "urn:a") = some cp →
      serializeNodeNS (XNode.element (some "urn:a") none "c" [] [])
        (some "urn:b") ⟨[]⟩ 1 true false =
        .ok ([Event.beginElement (cp ++ ":" ++ "c"),
          Event.openTagBegin (cp ++ ":" ++ "c"), Event.attributes [],
          Event.openTagEnd (cp ++ ":" ++ "c") true false,
          Event.endElement (cp ++ ":" ++ "c")], 1)) ∧
    ((some "urn:b" : Option String) ≠ some "urn:a" →
      NamespacePfxMap.get ⟨[]⟩ none (some "urn:a") = none →
      serializeNodeNS (XNode.element (some "urn:a") none "c" [] [])
        (some "urn:b") ⟨[]⟩ 1 true false =
        .ok ([Event.beginElement "c", Event.openTagBegin "c",
          Event.attributes [(none, none, "xmlns", escapeAttrValueDefault "urn:a")],
          Event.openTagEnd "c" true false, Event.endElement "c"], 1)) :=
  claim_c5_default_namespace "urn:a" "c" (by decide) (by decide) (by decide)
    (by decide) (by decide) (by decide) (by decide) (some "urn:b") ⟨[]⟩ 1 true false

end XmlBuilder2

namespace XmlBuilder2

/-! ### Claim C3: fast-path equivalence on namespace-free trees -/

/-- The local name set corresponding to a fast-path local name list: every
recorded pair has a null namespace. -/
def pairUp (l : List String) : LocalNameSet :=
  ⟨l.map (fun s => ((none : Option String), s))⟩

theorem pairUp_has (l : List String) (s : String) :
    (pairUp l).has none s = l.contains s := by
  induction l with
  | nil => rfl
  | cons a rest ih =>
    by_cases h : s = a
    · simp [pairUp, LocalNameSet.has, List.contains_cons, h]
    · have hpair : (((none : Option String), s) == ((none : Option String), a)) = false := by
        simp [h]
      have hsa : (s == a) = false := by simp [h]
      simp only [pairUp, LocalNameSet.has, List.map_cons, List.contains_cons, hpair,
        hsa, Bool.false_or]
      exact ih

/-- Recording namespace information over attributes without namespaces is a
no-op. -/
theorem record_nsfree (attrs : List XAttr) (h : attrs.all nsFreeAttr = true) :
    ∀ (mp : NamespacePfxMap) (lpm : List (String × String)) (dflt : Option String),
      recordNamespaceInformation attrs mp lpm dflt = (mp, lpm, dflt) := by
  induction attrs with
  | nil => intro mp lpm dflt; rfl
  | cons a rest ih =>
    intro mp lpm dflt
    simp only [List.all_cons, Bool.and_eq_true, nsFreeAttr, beq_iff_eq] at h
    obtain ⟨ha, hrest⟩ := h
    simp only [recordNamespaceInformation, ha]
    rw [if_neg (by simp)]
    exact ih (by simpa [List.all_eq_true, nsFreeAttr] using hrest) mp lpm dflt

/-- One step of the namespace-aware attribute loop on a namespace-free,
non-xmlns-named attribute, expressed in fast-path terms. -/
theorem c3_step_equiv (rwf nde : Bool) (a : XAttr) (lnsF : List String)
    (map : NamespacePfxMap) (idx : Nat)
    (hns : a.namespaceURI = none) (hxm : (a.localName == "xmlns") = false) :
    serializeAttrStep rwf nde false [] a (pairUp lnsF) map idx =
      (if rwf && lnsF.contains a.localName then
        .error "Element contains duplicate attributes (well-formed required)."
      else if rwf && (strIncludes a.localName ":" || ! xml_isName a.localName) then
        .error "Attribute local name contains invalid characters (well-formed required)."
      else (serializeAttributeValue (some a.value) rwf nde).map
        (fun v => (pairUp (if rwf then a.localName :: lnsF else lnsF), map, idx,
          [(none, none, a.localName, v)]))) := by
  cases rwf with
  | false =>
    simp [serializeAttrStep, hns, serializeAttributeValue_false_ok, Except.map, bindOk]
  | true =>
    have hxm2 : a.localName ≠ "xmlns" := by simpa using hxm
    by_cases hdup : lnsF.contains a.localName = true
    · have hmem : a.localName ∈ lnsF := by simpa using hdup
      simp [serializeAttrStep, hns, pairUp_has, hdup, hmem]
    · have hmem : a.localName ∉ lnsF := by simpa using hdup
      by_cases hinv : (strIncludes a.localName ":" || ! xml_isName a.localName) = true
      · rcases (by simpa using hinv :
            strIncludes a.localName ":" = true ∨ xml_isName a.localName = false) with h | h
        · simp [serializeAttrStep, hns, pairUp_has, hdup, hmem, h, hxm2]
        · simp [serializeAttrStep, hns, pairUp_has, hdup, hmem, h, hxm2]
      · obtain ⟨h1, h2⟩ : strIncludes a.localName ":" = false ∧
            xml_isName a.localName = true := by
          rcases Bool.eq_false_or_eq_true (strIncludes a.localName ":") with hu | hu <;>
            rcases Bool.eq_false_or_eq_true (xml_isName a.localName) with hv | hv <;>
            simp [hu, hv] at hinv ⊢
        cases hsv : serializeAttributeValue (some a.value) true nde with
        | error e =>
          simp [serializeAttrStep, hns, pairUp_has, hdup, hmem, h1, h2, hxm2, hsv,
            Except.map, bindError]
        | ok v =>
          have hset : (pairUp lnsF).set none a.localName = pairUp (a.localName :: lnsF) :=
            rfl
          have hhas : (pairUp lnsF).has none a.localName = false := by
            rw [pairUp_has]
            simpa using hdup
          simp [serializeAttrStep, hns, hhas, hset, hmem, hdup, h1, h2, hxm2, hsv,
            Except.map, bindOk]

end XmlBuilder2

namespace XmlBuilder2

/-- On namespace-free, non-xmlns-named attribute lists the namespace-aware
attribute loop coincides with the fast loop, leaving map and index unchanged. -/
theorem c3_attrs_equiv (rwf nde : Bool) :
    ∀ (attrs : List XAttr) (lnsF : List String) (map : NamespacePfxMap) (idx : Nat)
      (acc : List AttrEntry),
      attrs.all nsFreeAttr = true →
      attrs.all (fun a => ! (a.localName == "xmlns")) = true →
      serializeAttributesNSLoop rwf nde false [] attrs (pairUp lnsF) map idx acc =
        (serializeAttributesLoop rwf nde attrs lnsF acc).map
          (fun out => (out, map, idx)) := by
  intro attrs
  induction attrs with
  | nil => intro lnsF map idx acc _ _; rfl
  | cons a rest ih =>
    intro lnsF map idx acc hfree hxm
    simp only [List.all_cons, Bool.and_eq_true] at hfree hxm
    obtain ⟨hfa, hfree⟩ := hfree
    obtain ⟨hxa, hxm⟩ := hxm
    have hns : a.namespaceURI = none := by simpa [nsFreeAttr] using hfa
    have hxa2 : (a.localName == "xmlns") = false := by simpa using hxa
    simp only [serializeAttributesNSLoop, serializeAttributesLoop]
    rw [c3_step_equiv rwf nde a lnsF map idx hns hxa2]
    cases rwf with
    | false =>
      rw [if_neg (by simp : ¬ ((false && lnsF.contains a.localName) = true)),
        if_neg (by simp : ¬ ((false &&
          (strIncludes a.localName ":" || ! xml_isName a.localName)) = true)),
        serializeAttributeValue_false_ok,
        if_pos (by decide : (!false) = true)]
      simp only [Except.map, bindOk]
      rw [show (if false = true then a.localName :: lnsF else lnsF) = lnsF from rfl]
      exact ih lnsF map idx _ hfree hxm
    | true =>
      rw [if_neg (by decide : ¬ ((!true) = true))]
      by_cases hdup : lnsF.contains a.localName = true
      · rw [if_pos (by simp only [Bool.true_and]; exact hdup :
            (true && lnsF.contains a.localName) = true),
          if_pos hdup]
        rfl
      · rw [if_neg (by simp only [Bool.true_and]; exact hdup :
            ¬ ((true && lnsF.contains a.localName) = true)),
          if_neg hdup]
        by_cases hinv : (strIncludes a.localName ":" || ! xml_isName a.localName) = true
        · rw [if_pos (by simp only [Bool.true_and]; exact hinv :
              (true && (strIncludes a.localName ":" || ! xml_isName a.localName)) = true),
            if_pos hinv]
          rfl
        · rw [if_neg (by simp only [Bool.true_and]; exact hinv :
              ¬ ((true && (strIncludes a.localName ":" || ! xml_isName a.localName)) = true)),
            if_neg hinv]
          cases hsv : serializeAttributeValue (some a.value) true nde with
          | error e => rfl
          | ok v =>
            simp only [Except.map, bindOk]
            simp only [if_true]
            exact ih (a.localName :: lnsF) map idx _ hfree hxm

end XmlBuilder2

namespace XmlBuilder2

set_option maxHeartbeats 2000000

mutual

/-- On a namespace-free tree without xmlns-named attributes, the namespace-aware
path emits exactly the fast path's events and leaves the prefix index unchanged. -/
theorem c3_node_equiv (node : XNode) (m : NamespacePfxMap) (i : Nat) (rwf nde : Bool)
    (h1 : nsFreeNode node = true) (h2 : noXmlnsNamedAttrNode node = true) :
    serializeNodeNS node none m i rwf nde =
      (serializeNodeFast node rwf nde).map (fun ev => (ev, i)) := by
  cases node with
  | element ns p ln attrs children =>
    simp only [nsFreeNode, Bool.and_eq_true, beq_iff_eq] at h1
    simp only [noXmlnsNamedAttrNode, Bool.and_eq_true] at h2
    obtain ⟨⟨hns, hall⟩, hch⟩ := h1
    obtain ⟨hxall, hxch⟩ := h2
    subst hns
    by_cases hname : (rwf && (strIncludes ln ":" || ! xml_isName ln)) = true
    · simp [serializeNodeNS, serializeNodeFast, hname, Except.map]
    · have hpre : serializeElementPre none p ln none m [] none i rwf nde =
          .ok (ln, [], none, m, i, false) := by
        simp [serializeElementPre]
      have har : serializeAttributesNS attrs m i [] false rwf nde =
          (serializeAttributes attrs rwf nde).map (fun out => (out, m, i)) :=
        c3_attrs_equiv rwf nde attrs [] m i [] hall hxall
      have hcheq := c3_children_equiv children m i rwf nde hch hxch
      cases hfa : serializeAttributes attrs rwf nde with
      | error e =>
        simp [serializeNodeNS, serializeNodeFast, hname, record_nsfree attrs hall,
          NamespacePfxMap.copy, hpre, bindOk, har, hfa, Except.map, bindError]
      | ok entries =>
        cases hemp : children.isEmpty with
        | true =>
          simp [serializeNodeNS, serializeNodeFast, hname, record_nsfree attrs hall,
            NamespacePfxMap.copy, hpre, bindOk, har, hfa, hemp, Except.map]
        | false =>
          cases hchf : serializeChildrenFast children rwf nde with
          | error e =>
            rw [hchf] at hcheq
            simp [serializeNodeNS, serializeNodeFast, hname, record_nsfree attrs hall,
              NamespacePfxMap.copy, hpre, bindOk, har, hfa, hemp, hcheq, hchf,
              Except.map, bindError]
          | ok evs =>
            rw [hchf] at hcheq
            simp [serializeNodeNS, serializeNodeFast, hname, record_nsfree attrs hall,
              NamespacePfxMap.copy, hpre, bindOk, har, hfa, hemp, hcheq, hchf,
              Except.map]
  | document children =>
    simp only [nsFreeNode] at h1
    simp only [noXmlnsNamedAttrNode] at h2
    simp only [serializeNodeNS, serializeNodeFast]
    by_cases hdoc : (rwf && ! children.any isElementNode) = true
    · rw [if_pos hdoc, if_pos hdoc]; rfl
    · rw [if_neg hdoc, if_neg hdoc]
      exact c3_children_equiv children m i rwf nde h1 h2
  | docFragment children =>
    simp only [nsFreeNode] at h1
    simp only [noXmlnsNamedAttrNode] at h2
    exact c3_children_equiv children m i rwf nde h1 h2
  | text d => rfl
  | comment d => rfl
  | cdata d => rfl
  | instruction t d => rfl
  | doctype n pub sys => rfl
  | other t => rfl
termination_by (sizeOf node, 1)

/-- Fast-path equivalence for a list of children. -/
theorem c3_children_equiv (children : List XNode) (m : NamespacePfxMap) (i : Nat)
    (rwf nde : Bool)
    (h1 : nsFreeChildren children = true) (h2 : noXmlnsNamedAttrChildren children = true) :
    serializeChildrenNS children none m i rwf nde =
      (serializeChildrenFast children rwf nde).map (fun ev => (ev, i)) := by
  cases children with
  | nil => rfl
  | cons c cs =>
    simp only [nsFreeChildren, Bool.and_eq_true] at h1
    simp only [noXmlnsNamedAttrChildren, Bool.and_eq_true] at h2
    obtain ⟨h1c, h1cs⟩ := h1
    obtain ⟨h2c, h2cs⟩ := h2
    simp only [serializeChildrenNS, serializeChildrenFast]
    have hn := c3_node_equiv c m i rwf nde h1c h2c
    cases hf1 : serializeNodeFast c rwf nde with
    | error e =>
      rw [hf1] at hn
      simp [hn, Except.map, bindError]
    | ok ev1 =>
      rw [hf1] at hn
      simp only [Except.map] at hn
      rw [hn, bindOk]
      have hcs := c3_children_equiv cs m i rwf nde h1cs h2cs
      cases hf2 : serializeChildrenFast cs rwf nde with
      | error e =>
        rw [hf2] at hcs
        simp [hcs, Except.map, bindError, bindOk]
      | ok ev2 =>
        rw [hf2] at hcs
        simp only [Except.map] at hcs
        rw [hcs, bindOk]
        rfl
termination_by (sizeOf children, 0)

end

end XmlBuilder2

namespace XmlBuilder2

/-- Claim C3 (amended): on trees in which no element and no attribute carries a
namespace URI AND no attribute has local name xmlns (without the extra
restriction the claim fails, see the counterexample), the namespace-unaware
fast path emits exactly the same events as the namespace-aware path, with the
same errors, for both values of requireWellFormed; consequently the entry point
returns identical results with hasNamespaces true or false. -/
theorem claim_c3_fast_path_equivalence (node : XNode) (rwf nde : Bool)
    (h1 : nsFreeNode node = true) (h2 : noXmlnsNamedAttrNode node = true) :
    (∀ (m : NamespacePfxMap) (i : Nat),
      serializeNodeNS node none m i rwf nde =
        (serializeNodeFast node rwf nde).map (fun ev => (ev, i))) ∧
    serializeNode node true rwf nde = serializeNode node false rwf nde := by
  constructor
  · intro m i
    exact c3_node_equiv node m i rwf nde h1 h2
  · have h := c3_node_equiv node initialPfxMap 1 rwf nde h1 h2
    simp only [serializeNode]
    rw [h]
    cases hf : serializeNodeFast node rwf nde <;> simp [Except.map]

/-- Claim C3 counterexample: a tree carrying no namespace URI anywhere (one
element, one namespace-null attribute named xmlns) on which the two paths
disagree under requireWellFormed: the namespace-aware path raises the
invalid-attribute-name error while the fast path serializes the attribute. -/
theorem claim_c3_counterexample :
    nsFreeNode (XNode.element none none "root" [⟨none, none, "xmlns", "x"⟩] []) = true ∧
    serializeNode (XNode.element none none "root" [⟨none, none, "xmlns", "x"⟩] [])
      true true false =
      .error (DOMErr.invalidState
        "Attribute local name contains invalid characters (well-formed required).") ∧
    serializeNode (XNode.element none none "root" [⟨none, none, "xmlns", "x"⟩] [])
      false true false =
      .ok [Event.beginElement "root", Event.openTagBegin "root",
        Event.attributes [(none, none, "xmlns", "x")],
        Event.openTagEnd "root" true false, Event.endElement "root"] := by
  decide

/-- The amended fast-path equivalence applied to a concrete namespace-free tree
with one attribute and one text child, under requireWellFormed. -/
theorem claim_c3_fast_path_equivalence_witness :
    (∀ (m : NamespacePfxMap) (i : Nat),
      serializeNodeNS (XNode.element none none "r" [⟨none, none, "id", "1"⟩]
        [XNode.text "hi"]) none m i true false =
        (serializeNodeFast (XNode.element none none "r" [⟨none, none, "id", "1"⟩]
          [XNode.text "hi"]) true false).map (fun ev => (ev, i))) ∧
    serializeNode (XNode.element none none "r" [⟨none, none, "id", "1"⟩]
      [XNode.text "hi"]) true true false =
      serializeNode (XNode.element none none "r" [⟨none, none, "id", "1"⟩]
        [XNode.text "hi"]) false true false :=
  claim_c3_fast_path_equivalence
    (XNode.element none none "r" [⟨none, none, "id", "1"⟩] [XNode.text "hi"])
    true false (by decide) (by decide)

end XmlBuilder2
